import Mathlib

/-!
Verification of boheco2-bill-inquiry-server.

A shallow embedding of the proxy (`server/initialize.go`, `session/has_token.go`,
`session/initialize.go` and the `/api/v1/bill` handler of `main.go`) together with the
properties of its configuration resolver, session manager and request handler.

Go strings are embedded as `String`. The process environment, the clock, the parsing,
printing and quoting of URLs, single exchanges with the network and `Jar.SetCookies` are
inputs of the model; the session client on top of them (cookies, redirects, error
wrapping) is modelled.
-/

set_option autoImplicit false

namespace Boheco2

/-! ## Standard-library helpers used by the sources -/

namespace strings

/-- Go `unicode.IsSpace`: the Latin-1 white space characters and the code points of the
Unicode `White_Space` property above Latin-1. -/
def isSpace (c : Char) : Bool :=
  let n := c.toNat
  n == 0x09 || n == 0x0A || n == 0x0B || n == 0x0C || n == 0x0D || n == 0x20 ||
  n == 0x85 || n == 0xA0 || n == 0x1680 || (0x2000 ≤ n && n ≤ 0x200A) ||
  n == 0x2028 || n == 0x2029 || n == 0x202F || n == 0x205F || n == 0x3000

/-- Go `strings.TrimSpace`: the string without its leading and trailing white space. -/
def TrimSpace (s : String) : String :=
  ⟨((s.data.dropWhile isSpace).reverse.dropWhile isSpace).reverse⟩

/-- Pieces of a character list between occurrences of `sep`; there is always at least
one piece, and an empty input yields the single empty piece. -/
def splitChars (sep : Char) : List Char → List (List Char)
  | [] => [[]]
  | c :: cs =>
    if c = sep then [] :: splitChars sep cs
    else
      match splitChars sep cs with
      | [] => [[c]]
      | piece :: pieces => (c :: piece) :: pieces

/-- Go `strings.SplitSeq(s, sep)` for a one-character separator: the substrings of `s`
separated by `sep`, in order. -/
def SplitSeq (s : String) (sep : Char) : List String :=
  (splitChars sep s.data).map String.mk

end strings

/-! ## Package `server` -/

namespace server

/-- Process environment: `none` for a variable that is not set. -/
abbrev Env := String → Option String

/-- Go `os.Getenv`: the value of the variable, empty when it is not set. -/
def Getenv (env : Env) (key : String) : String :=
  (env key).getD ""

/-- Values produced by `Initialize`: the two results and the package variable
`allowedOrigins` it assigns. -/
structure Config where
  port : String
  apiBaseURL : String
  allowedOrigins : String
  deriving DecidableEq, Repr

/-- Source `getEnvWithFallback`: the variable when non-empty, else the fallback. -/
def getEnvWithFallback (env : Env) (key fallback : String) : String :=
  let value := Getenv env key
  if value != "" then value else fallback

/-- Source `Initialize`; the `panic` is the `error` result carrying the panic message. -/
def Initialize (env : Env) : Except String Config :=
  let defaultPort := "3000"
  let defaultAPIBaseURL := "https://bill-inquiry-api.onrender.com"
  let defaultAllowedOrigins := "*"
  let mode := Getenv env "MODE"
  let mode := if mode == "" then "development" else mode
  if mode == "production" then
    let port := Getenv env "BOHECO2_PROXY_SERVER_PORT"
    let apiBaseURL := Getenv env "BOHECO2_API_BASE_URL"
    let allowedOrigins := Getenv env "BOHECO2_PROXY_SERVER_ALLOWED_ORIGINS"
    if port == "" || apiBaseURL == "" || allowedOrigins == "" then
      .error "Required environment variables BOHECO2_PROXY_SERVER_PORT and BOHECO2_API_BASE_URL must be set in production mode"
    else
      .ok { port := port, apiBaseURL := apiBaseURL, allowedOrigins := allowedOrigins }
  else
    .ok { port := getEnvWithFallback env "BOHECO2_PROXY_SERVER_PORT" defaultPort
          apiBaseURL := getEnvWithFallback env "BOHECO2_API_BASE_URL" defaultAPIBaseURL
          allowedOrigins :=
            getEnvWithFallback env "BOHECO2_PROXY_SERVER_ALLOWED_ORIGINS" defaultAllowedOrigins }

/-- Loop of `IsOriginAllowed` over the pieces of the allow-list. -/
def IsOriginAllowed.loop (requestOrigin : String) : List String → Bool
  | [] => false
  | origin :: rest =>
    if strings.TrimSpace origin == requestOrigin then true
    else IsOriginAllowed.loop requestOrigin rest

/-- Source `IsOriginAllowed`, with the package variable `allowedOrigins` as an argument. -/
def IsOriginAllowed (allowedOrigins requestOrigin : String) : Bool :=
  if allowedOrigins == "*" then true
  else IsOriginAllowed.loop requestOrigin (strings.SplitSeq allowedOrigins ',')

/-- Reference definition of the configuration resolver, following the specification:
a variable counts as missing when it is unset or empty. -/
def valueOrDefault (env : Env) (key fallback : String) : String :=
  match env key with
  | none => fallback
  | some v => if v = "" then fallback else v

/-- A variable is unset or empty. -/
def unsetOrEmpty (env : Env) (key : String) : Bool :=
  match env key with
  | none => true
  | some v => v == ""

/-- Reference definition of the configuration resolver, following the specification:
strict mode needs all three variables set and non-empty and yields them unchanged;
permissive mode never fails and substitutes the defaults. `none` is the fatal failure. -/
def InitializeRef (env : Env) : Option Config :=
  if env "MODE" = some "production" then
    match env "BOHECO2_PROXY_SERVER_PORT", env "BOHECO2_API_BASE_URL",
        env "BOHECO2_PROXY_SERVER_ALLOWED_ORIGINS" with
    | some p, some u, some a =>
      if p = "" ∨ u = "" ∨ a = "" then none
      else some { port := p, apiBaseURL := u, allowedOrigins := a }
    | _, _, _ => none
  else
    some { port := valueOrDefault env "BOHECO2_PROXY_SERVER_PORT" "3000"
           apiBaseURL :=
             valueOrDefault env "BOHECO2_API_BASE_URL" "https://bill-inquiry-api.onrender.com"
           allowedOrigins := valueOrDefault env "BOHECO2_PROXY_SERVER_ALLOWED_ORIGINS" "*" }

end server

/-! ## Packages `net/url`, `net/http` and `net/http/cookiejar` -/

namespace http

/-- Instants, counted from the zero value of Go `time.Time`; `0` is that zero value and
the wall clock never reads earlier. `t.After(u)` is `t > u`. -/
abbrev Time := Nat

/-- The components of a parsed `url.URL` that the cookie jar reads; `Host` is the
canonical host (lower case, no port). -/
structure URL where
  Scheme : String
  Host : String
  Path : String
  deriving DecidableEq, Repr

/-- Go `http.Cookie`; every field defaults to its Go zero value. -/
structure Cookie where
  Name : String := ""
  Value : String := ""
  Path : String := ""
  Domain : String := ""
  Expires : Time := 0
  MaxAge : Int := 0
  Secure : Bool := false
  HttpOnly : Bool := false
  deriving DecidableEq, Repr

/-- Go `http.Header`, a map from canonical key to values, as an association list. -/
abbrev Header := List (String × List String)

/-- Go `Header.Get`: first value stored under the key, empty when there is none. -/
def Header.Get (h : Header) (key : String) : String :=
  match h.lookup key with
  | some (v :: _) => v
  | _ => ""

/-- Go `Header.Del`: drops the key. -/
def Header.Del (h : Header) (key : String) : Header :=
  h.filter (fun kv => kv.1 != key)

/-- Go `Header.Set`: the key now maps to the single value. -/
def Header.Set (h : Header) (key value : String) : Header :=
  (key, [value]) :: Header.Del h key

/-- Outbound `http.Request`. `rawURL` is the string its URL was parsed from (the argument
of `NewRequest`, or the `Location` value for a followed redirect); `Cookies` are the
name/value pairs carried in its `Cookie` header. -/
structure Request where
  Method : String
  rawURL : String
  URL : URL
  Header : Header := []
  Cookies : List (String × String) := []
  Body : Option String := none
  deriving DecidableEq, Repr

/-- Upstream `http.Response` as the transport returns it: status code, the value of its
`Location` header (empty when there is none), the cookies of its `Set-Cookie` headers
(`resp.Cookies()`), and the bytes of its body. -/
structure Response where
  StatusCode : Nat
  Location : String := ""
  Cookies : List Cookie := []
  Body : String := ""
  deriving DecidableEq, Repr

/-- Go `redirectBehavior` for a request whose body can be replayed (built by
`http.NewRequest` without body or from a `bytes.Reader`): the method of the followed
request and whether the response is a redirect to follow. -/
def redirectBehavior (reqMethod : String) (resp : Response) : String × Bool :=
  if resp.StatusCode = 301 ∨ resp.StatusCode = 302 ∨ resp.StatusCode = 303 then
    (if reqMethod != "GET" && reqMethod != "HEAD" then "GET" else reqMethod, true)
  else if resp.StatusCode = 307 ∨ resp.StatusCode = 308 then (reqMethod, true)
  else ("", false)

/-- The client follows the response: it is a redirect (301, 302, 303, 307, 308) and
carries a `Location`. -/
def Response.followed (resp : Response) : Bool :=
  (redirectBehavior "GET" resp).2 && resp.Location != ""

/-- Go `urlErrorOp`: the method with its first letter kept and the rest in lower case
(`Get` for the empty method; the method itself when it is not ASCII). -/
def urlErrorOp (method : String) : String :=
  match method.data with
  | [] => "Get"
  | c :: cs =>
    if method.data.all (fun x => x.toNat < 128) then ⟨c :: cs.map Char.toLower⟩ else method

/-- The call `req.Header.Set(key, value)`. -/
def Request.HeaderSet (r : Request) (key value : String) : Request :=
  { r with Header := Header.Set r.Header key value }

/-- Go `Request.AddCookie`: one more pair in the `Cookie` header. -/
def Request.AddCookie (r : Request) (c : Cookie) : Request :=
  { r with Cookies := r.Cookies ++ [(c.Name, c.Value)] }

/-- What the handler has handed to its `http.ResponseWriter`: the header map, whether the
status line was written, the status code and the body bytes. -/
structure ResponseWriter where
  Header : Header := []
  wroteHeader : Bool := false
  Code : Nat := 0
  Body : String := ""
  deriving DecidableEq, Repr

/-- The call `w.Header().Set(key, value)`. -/
def ResponseWriter.HeaderSet (w : ResponseWriter) (key value : String) : ResponseWriter :=
  { w with Header := Header.Set w.Header key value }

/-- Go `ResponseWriter.WriteHeader`: only the first call fixes the status code. -/
def ResponseWriter.WriteHeader (w : ResponseWriter) (code : Nat) : ResponseWriter :=
  if w.wroteHeader then w else { w with wroteHeader := true, Code := code }

/-- Go `ResponseWriter.Write`: an implicit `WriteHeader(200)` when none was made, then
the bytes are appended to the body. -/
def ResponseWriter.Write (w : ResponseWriter) (b : String) : ResponseWriter :=
  let w1 := if w.wroteHeader then w else w.WriteHeader 200
  { w1 with Body := w1.Body ++ b }

/-- Go `io.Copy(w, body)`: the body bytes are written through; nothing is written for an
empty body. -/
def Copy (w : ResponseWriter) (body : String) : ResponseWriter :=
  if body = "" then w else w.Write body

/-- Go `http.Error`: removes `Content-Length`, sets the plain-text content type and the
`nosniff` option, writes the status code, then the message followed by a line feed
(`fmt.Fprintln`). -/
def Error (w : ResponseWriter) (error : String) (code : Nat) : ResponseWriter :=
  let w1 := { w with Header := Header.Del w.Header "Content-Length" }
  let w2 := w1.HeaderSet "Content-Type" "text/plain; charset=utf-8"
  let w3 := w2.HeaderSet "X-Content-Type-Options" "nosniff"
  (w3.WriteHeader code).Write (error ++ "\n")

end http

namespace cookiejar

open http

/-- Go `cookiejar.entry`, the jar's internal record of a stored cookie. A cookie without
expiry attribute is stored non-persistent with `Expires` at the end of time. -/
structure entry where
  Name : String
  Value : String
  Domain : String
  Path : String
  Secure : Bool := false
  HttpOnly : Bool := false
  Persistent : Bool := false
  HostOnly : Bool := true
  Expires : Time := 0
  Creation : Time := 0
  LastAccess : Time := 0
  seqNum : Nat := 0
  deriving DecidableEq, Repr

/-- The entries a `cookiejar.Jar` holds under the key of the upstream host; every URL
the program hands to the jar derives from the one base URL. -/
abbrev Jar := List entry

/-- Go `hasDotSuffix`: `s` ends in `"." + suffix`. -/
def hasDotSuffix (s suffix : String) : Bool :=
  ('.' :: suffix.data).isSuffixOf s.data

/-- Go `entry.domainMatch`. -/
def entry.domainMatch (e : entry) (host : String) : Bool :=
  if e.Domain == host then true
  else !e.HostOnly && hasDotSuffix host e.Domain

/-- Go `entry.pathMatch`. -/
def entry.pathMatch (e : entry) (requestPath : String) : Bool :=
  if requestPath == e.Path then true
  else if e.Path.data.isPrefixOf requestPath.data then
    if e.Path.data.getLast? == some '/' then true
    else (requestPath.data.drop e.Path.data.length).head? == some '/'
  else false

/-- Go `entry.shouldSend`. -/
def entry.shouldSend (e : entry) (https : Bool) (host path : String) : Bool :=
  e.domainMatch host && e.pathMatch path && (https || !e.Secure)

/-- Order in which `Jar.Cookies` lists the selected entries: longer path first, then
earlier creation, then lower sequence number. -/
def entry.before (a b : entry) : Prop :=
  if a.Path.utf8ByteSize ≠ b.Path.utf8ByteSize then b.Path.utf8ByteSize < a.Path.utf8ByteSize
  else if a.Creation ≠ b.Creation then a.Creation < b.Creation
  else a.seqNum ≤ b.seqNum

instance : DecidableRel entry.before := fun a b => by
  unfold entry.before; exact inferInstance

/-- Go `Jar.Cookies(u)` at clock reading `now`: nothing for a scheme other than http and
https; otherwise expired persistent entries are deleted, the entries to send to `u` get
their last access stamped, and each of them is returned as
`http.Cookie{Name: e.Name, Value: e.Value}`, every other field of the cookie left at its
zero value. The result pairs the returned cookies with the jar afterwards. -/
def Jar.Cookies (j : Jar) (u : URL) (now : Time) : List Cookie × Jar :=
  if u.Scheme != "http" && u.Scheme != "https" then ([], j)
  else
    let https := u.Scheme == "https"
    let path := if u.Path == "" then "/" else u.Path
    let kept := j.filter (fun e => !(e.Persistent && !(decide (e.Expires > now))))
    let selected := kept.filter (fun e => e.shouldSend https u.Host path)
    let stamped := kept.map (fun e =>
      if e.shouldSend https u.Host path then { e with LastAccess := now } else e)
    ((selected.insertionSort entry.before).map
        (fun e => ({ Name := e.Name, Value := e.Value } : Cookie)),
      stamped)

end cookiejar

/-! ## Inputs of the model -/

open http cookiejar

/-- Everything outside the program: `url.Parse`; `URL.Parse(ref)`, which resolves a
`Location` value against a request URL; the string form of a URL with the password
hidden (`stripPassword`); the quoting of `%q`; the header and body the client copies onto
a followed request, given the requests made so far, the redirect response and the new
URL (`makeHeadersCopier`, the `Referer` rule, `GetBody`); one exchange of a request with
the network, given the requests sent so far (an `error` is a transport failure and
carries its message); and the jar's `SetCookies`. -/
structure World where
  Parse : String → Except String URL
  Reference : URL → String → Except String URL
  Redacted : URL → String
  Quote : String → String
  Follow : List Request → Response → URL → Header × Option String
  RoundTrip : List Request → Request → Except String Response
  SetCookies : Jar → URL → List Cookie → Time → Jar

deriving instance DecidableEq for Except

/-- Observable steps of the session client: the start of a bootstrap, and one exchange of
a request with the network together with its outcome. -/
inductive Event where
  | bootstrap
  | roundTrip (req : Request) (res : Except String Response)
  deriving DecidableEq

/-- The requests sent in a trace. -/
def Event.requests : List Event → List Request
  | [] => []
  | .bootstrap :: rest => Event.requests rest
  | .roundTrip req _ :: rest => req :: Event.requests rest

/-- An event is an upstream call with the given method. -/
def Event.isCall (method : String) : Event → Bool
  | .bootstrap => false
  | .roundTrip req _ => req.Method == method

/-- An event is the start of a session bootstrap. -/
def Event.isBootstrap : Event → Bool
  | .bootstrap => true
  | .roundTrip _ _ => false

/-- Method and error message of an exchange that failed at transport level. -/
def Event.failed : Event → Option (String × String)
  | .roundTrip req (.error e) => some (req.Method, e)
  | _ => none

/-- Method of an answered exchange with the status code and body of the answer. -/
def Event.answered : Event → Option (String × Nat × String)
  | .roundTrip req (.ok resp) => some (req.Method, resp.StatusCode, resp.Body)
  | _ => none

/-- Go `http.NewRequest(method, url, body)` for a valid method: fails exactly when the
URL does not parse, with the parse error. -/
def http.NewRequest (W : World) (method url : String) (body : Option String) :
    Except String Request :=
  match W.Parse url with
  | .error err => .error err
  | .ok u => .ok { Method := method, rawURL := url, URL := u, Body := body }

/-! ## Package `session` -/

namespace session

/-- Package variables of `session`: the jar (to which `Client` is bound) and
`APIBaseURL`. -/
structure State where
  Jar : Jar := []
  APIBaseURL : String := ""
  deriving DecidableEq, Repr

/-- Source `SetAPIBaseURL`. -/
def SetAPIBaseURL (S : State) (baseURL : String) : State :=
  { S with APIBaseURL := baseURL }

/-- The request as `Client.send` sends it: the jar's cookies for the request URL attached
(`req.AddCookie` for each cookie of `Jar.Cookies(req.URL)`). -/
def withCookies (S : State) (now : Time) (req : Request) : Request :=
  (S.Jar.Cookies req.URL now).1.foldl Request.AddCookie req

/-- State left by `Client.send` after a received response. -/
def absorbed (W : World) (S : State) (now : Time) (req : Request) (resp : Response) : State :=
  { S with Jar :=
      if resp.Cookies.isEmpty then (S.Jar.Cookies req.URL now).2
      else W.SetCookies (S.Jar.Cookies req.URL now).2 req.URL resp.Cookies now }

/-- Message of the `*url.Error` in which `Client.Do` wraps every error it returns:
`fmt.Sprintf("%s %q: %s", Op, URL, Err)`. -/
def urlError (W : World) (op url err : String) : String :=
  op ++ " " ++ W.Quote url ++ ": " ++ err

/-- Outcome of one turn of the loop of `Client.do`: the call returns (result, state,
the exchange made), or a redirect is to be followed (state, the exchange made, the
request as sent, the `Location` value, the next request). -/
inductive Hop where
  | done (res : Except String Response) (S : State) (ev : Event)
  | follow (S : State) (ev : Event) (sent : Request) (loc : String) (next : Request)

/-- One turn of the loop of `Client.do`. `Client.send` attaches the jar's cookies for the
request URL, exchanges the request and lets the jar store the cookies of a received
response. A transport failure is returned wrapped in a `*url.Error` naming the request
URL. A response that is no redirect, or a redirect without `Location`, is returned.
Otherwise the `Location` is resolved against the request URL (a failure is returned
wrapped) and the next request is built. `op` is the operation of the first request and
`reqs` are the requests made before this one. -/
def hop (W : World) (now : Time) (op : String) (S : State) (hist reqs : List Request)
    (req : Request) : Hop :=
  let req1 := withCookies S now req
  match W.RoundTrip hist req1 with
  | .error err =>
    .done (.error (urlError W op (W.Redacted req.URL) err))
      { S with Jar := (S.Jar.Cookies req.URL now).2 } (.roundTrip req1 (.error err))
  | .ok resp =>
    let S1 := absorbed W S now req resp
    let ev := Event.roundTrip req1 (.ok resp)
    if !(redirectBehavior req.Method resp).2 then .done (.ok resp) S1 ev
    else if resp.Location == "" then .done (.ok resp) S1 ev
    else
      match W.Reference req.URL resp.Location with
      | .error perr =>
        .done (.error (urlError W op (W.Redacted req.URL)
          ("failed to parse Location header " ++ W.Quote resp.Location ++ ": " ++ perr))) S1 ev
      | .ok u =>
        .follow S1 ev req1 resp.Location
          { Method := (redirectBehavior req.Method resp).1, rawURL := resp.Location, URL := u,
            Header := (W.Follow (reqs ++ [req1]) resp u).1,
            Body := (W.Follow (reqs ++ [req1]) resp u).2 }

/-- The loop of `Client.do` under the default redirect policy, which stops with the error
`stopped after 10 redirects` once ten requests have been made; `left` counts the requests
still allowed after the current one. Yields the result, the state afterwards and the
exchanges in order. -/
def ClientDo.loop (W : World) (now : Time) (op : String) :
    Nat → State → List Request → List Request → Request →
      Except String Response × State × List Event
  | 0, S, hist, reqs, req =>
    match hop W now op S hist reqs req with
    | .done res S1 ev => (res, S1, [ev])
    | .follow S1 ev _ loc _ =>
      (.error (urlError W op loc "stopped after 10 redirects"), S1, [ev])
  | left + 1, S, hist, reqs, req =>
    match hop W now op S hist reqs req with
    | .done res S1 ev => (res, S1, [ev])
    | .follow S1 ev sent _ next =>
      let out := ClientDo.loop W now op left S1 (hist ++ [sent]) (reqs ++ [sent]) next
      (out.1, out.2.1, ev :: out.2.2)

/-- The call `Client.Do(req)` of the session client, `&http.Client{Jar: Jar}`: redirects
are followed under the default policy and every error is wrapped in a `*url.Error` whose
operation is that of `req`. -/
def ClientDo (W : World) (S : State) (now : Time) (hist : List Request) (req : Request) :
    Except String Response × State × List Event :=
  ClientDo.loop W now (urlErrorOp req.Method) 9 S hist [] req

/-- The jar effects of a sequence of exchanges, replayed on a state: before each exchange
the jar drops its expired entries, after each received response it stores the cookies of
the response. -/
def replay (W : World) (now : Time) : State → List Event → State
  | S, [] => S
  | S, .bootstrap :: rest => replay W now S rest
  | S, .roundTrip q (.error _) :: rest =>
    replay W now { S with Jar := (S.Jar.Cookies q.URL now).2 } rest
  | S, .roundTrip q (.ok resp) :: rest => replay W now (absorbed W S now q resp) rest

/-- The error of a result, `none` for a response. -/
def errorOf (res : Except String Response) : Option String :=
  match res with
  | .error err => some err
  | .ok _ => none

/-- The four ways a call of `Client.Do` with operation `op` ends, read off its result and
its exchanges: the last exchange fails at transport level and its error is returned
wrapped; the last response is not followed and is returned; the last response is a
redirect whose `Location` does not parse; or the last response is a redirect after `n`
exchanges, the most the redirect policy allows. -/
def Ended (W : World) (op : String) (n : Nat) (res : Except String Response)
    (ev : List Event) : Prop :=
  (∃ q e, ev.getLast? = some (.roundTrip q (.error e)) ∧
    res = .error (urlError W op (W.Redacted q.URL) e)) ∨
  (∃ q resp, ev.getLast? = some (.roundTrip q (.ok resp)) ∧ resp.followed = false ∧
    res = .ok resp) ∨
  (∃ q resp perr, ev.getLast? = some (.roundTrip q (.ok resp)) ∧ resp.followed = true ∧
    W.Reference q.URL resp.Location = .error perr ∧
    res = .error (urlError W op (W.Redacted q.URL)
      ("failed to parse Location header " ++ W.Quote resp.Location ++ ": " ++ perr))) ∨
  (∃ q resp, ev.getLast? = some (.roundTrip q (.ok resp)) ∧ resp.followed = true ∧
    res = .error (urlError W op resp.Location "stopped after 10 redirects") ∧ ev.length = n)

/-- A sequence of exchanges is a redirect chain started on `req` in state `S`: it starts
with `req` as sent, holds exchanges only, every request has the method of `req` or is a
GET, every response before the last was a redirect that the client followed, and there
are at most `n` exchanges. -/
def RedirectChain (S : State) (now : Time) (n : Nat) (req : Request) (ev : List Event) : Prop :=
  (∃ r0 tail, ev = .roundTrip (withCookies S now req) r0 :: tail) ∧
  (∀ e ∈ ev, e.isBootstrap = false) ∧
  (∀ q r, Event.roundTrip q r ∈ ev → q.Method = req.Method ∨ q.Method = "GET") ∧
  (∀ e ∈ ev.dropLast, ∃ q resp, e = .roundTrip q (.ok resp) ∧ resp.followed = true) ∧
  ev.length ≤ n

/-- Loop of `HasToken` over the cookies the jar returns. -/
def HasToken.loop (now : Time) : List Cookie → Bool
  | [] => false
  | ck :: rest =>
    if ck.Name == "session_token" && decide (ck.Expires > now) then true
    else HasToken.loop now rest

/-- The jar holds, for URL `u`, a cookie named `session_token` whose expiry is after
`now`. -/
def holdsLiveToken (j : Jar) (u : URL) (now : Time) : Bool :=
  j.any (fun e => e.Name == "session_token" &&
    e.shouldSend (u.Scheme == "https") u.Host (if u.Path == "" then "/" else u.Path) &&
    decide (e.Expires > now))

/-- Source `HasToken`. The parse error is dropped by the source, so for a base URL that
does not parse `u` is nil and `Jar.Cookies(u)` panics: result `none`. -/
def HasToken (W : World) (S : State) (now : Time) : Option (Bool × State) :=
  match W.Parse S.APIBaseURL with
  | .error _ => none
  | .ok u =>
    let (cks, jar1) := S.Jar.Cookies u now
    some (HasToken.loop now cks, { S with Jar := jar1 })

/-- Source `Initialize`: the returned error (`none` for nil), the state afterwards and
the events, the first of which marks the call itself. -/
def Initialize (W : World) (S : State) (now : Time) (hist : List Request) :
    Option String × State × List Event :=
  let apiURL := S.APIBaseURL ++ "/api/v1/session-init"
  match http.NewRequest W "GET" apiURL none with
  | .error err => (some err, S, [.bootstrap])
  | .ok req =>
    let req := req.HeaderSet "Accept" "application/json, text/plain, */*"
    let req := req.HeaderSet "Origin" "https://www.boheco2.com.ph"
    let req := req.HeaderSet "Referer" "https://www.boheco2.com.ph"
    match ClientDo W S now hist req with
    | (.error err, S1, ev) => (some err, S1, .bootstrap :: ev)
    | (.ok _, S1, ev) => (none, S1, .bootstrap :: ev)

/-- Lines 52 to 58 of the handler let the run continue: a valid token is reported, or the
bootstrap returns nil. -/
def ready (W : World) (S : State) (now : Time) (hist : List Request) : Bool :=
  match HasToken W S now with
  | none => false
  | some (true, _) => true
  | some (false, S1) => (Initialize W S1 now hist).1.isNone

end session

/-! ## The `/api/v1/bill` handler of `main` -/

/-- Inbound request as the handler reads it: method, headers, and what
`io.ReadAll(r.Body)` yields. -/
structure InRequest where
  Method : String
  Header : Header := []
  Body : Except String String := .ok ""

/-- One execution of the handler: what was written to the response writer, the session
state afterwards, the session events in order, whether the handler panicked, and what
`session.Client.Do(req)` of line 82 returned when the run got there. -/
structure Run where
  w : ResponseWriter
  S : session.State
  events : List Event
  panicked : Bool := false
  upstream : Option (Except String Response) := none

/-- Lines 60 to 91 of the handler: read the body, build and send the upstream POST,
relay the answer. `ev` are the events so far. -/
def handler.forward (W : World) (apiBaseURL : String) (w : ResponseWriter)
    (S : session.State) (now : Time) (hist : List Request) (ev : List Event)
    (r : InRequest) : Run :=
  match r.Body with
  | .error _ => { w := http.Error w "Failed to read request body" 400, S := S, events := ev }
  | .ok bodyBytes =>
    let apiURL := apiBaseURL ++ "/api/v1/bill"
    match http.NewRequest W "POST" apiURL (some bodyBytes) with
    | .error err => { w := http.Error w err 500, S := S, events := ev }
    | .ok req =>
      let req := req.HeaderSet "Accept" "application/json, text/plain, */*"
      let req := req.HeaderSet "Origin" "https://www.boheco2.com.ph"
      let req := req.HeaderSet "Referer" "https://www.boheco2.com.ph"
      let req := req.HeaderSet "Content-Type" "application/json"
      match session.ClientDo W S now (hist ++ Event.requests ev) req with
      | (.error err, S1, ev1) =>
        { w := http.Error w err 502, S := S1, events := ev ++ ev1,
          upstream := some (.error err) }
      | (.ok resp, S1, ev1) =>
        { w := http.Copy (w.WriteHeader resp.StatusCode) resp.Body, S := S1,
          events := ev ++ ev1, upstream := some (.ok resp) }

/-- Lines 35 to 44 of the handler: the CORS headers set on the fresh response writer. -/
def handler.cors (allowedOrigins : String) (r : InRequest) : ResponseWriter :=
  let requestOrigin := r.Header.Get "Origin"
  let w0 : ResponseWriter := {}
  let w1 := if server.IsOriginAllowed allowedOrigins requestOrigin then
      w0.HeaderSet "Access-Control-Allow-Origin" requestOrigin
    else w0
  let w2 := w1.HeaderSet "Access-Control-Allow-Methods" "POST, OPTIONS"
  w2.HeaderSet "Access-Control-Allow-Headers" "Content-Type, Authorization"

/-- The handler registered for `/api/v1/bill`, run with allow-list `allowedOrigins`,
captured `apiBaseURL`, session state `S`, clock reading `now` and the requests `hist`
already sent upstream. -/
def handler (W : World) (allowedOrigins apiBaseURL : String) (S : session.State)
    (now : Time) (hist : List Request) (r : InRequest) : Run :=
  let w := handler.cors allowedOrigins r
  if r.Method == "OPTIONS" then
    { w := w.WriteHeader 204, S := S, events := [] }
  else
    match session.HasToken W S now with
    | none => { w := w, S := S, events := [], panicked := true }
    | some (true, S1) => handler.forward W apiBaseURL w S1 now hist [] r
    | some (false, S1) =>
      match session.Initialize W S1 now hist with
      | (some err, S2, ev) =>
        { w := http.Error w ("Failed to init session: " ++ err) 500, S := S2, events := ev }
      | (none, S2, ev) => handler.forward W apiBaseURL w S2 now hist ev r

/-! ## Sample inputs -/

namespace Sample

/-- The default upstream base URL. -/
def base : String := "https://bill-inquiry-api.onrender.com"

/-- Host of the default upstream. -/
def host : String := "bill-inquiry-api.onrender.com"

/-- A parser that knows the three URLs of the default upstream. -/
def parse (s : String) : Except String URL :=
  if s = base then .ok { Scheme := "https", Host := host, Path := "" }
  else if s = base ++ "/api/v1/session-init" then
    .ok { Scheme := "https", Host := host, Path := "/api/v1/session-init" }
  else if s = base ++ "/api/v1/bill" then
    .ok { Scheme := "https", Host := host, Path := "/api/v1/bill" }
  else .error ("parse " ++ s ++ ": invalid URL")

/-- String form of a sample URL. -/
def redacted (u : URL) : String :=
  u.Scheme ++ "://" ++ u.Host ++ u.Path

/-- Quoting of a string without special characters. -/
def quote (s : String) : String :=
  "\"" ++ s ++ "\""

/-- Resolution of a `Location` against the request URL: an absolute path stays on the
host of the request, the one absolute URL known here names another host, anything else
does not parse. -/
def reference (u : URL) (loc : String) : Except String URL :=
  if loc.data.head? = some '/' then .ok { Scheme := u.Scheme, Host := u.Host, Path := loc }
  else if loc = "https://elsewhere.example/landing" then
    .ok { Scheme := "https", Host := "elsewhere.example", Path := "/landing" }
  else .error ("parse " ++ quote loc ++ ": invalid URI for request")

/-- A followed request gets the headers of the first request; its body is that of the
first request after a 307 or 308 and absent otherwise. -/
def follow (reqs : List Request) (resp : Response) (_ : URL) : Header × Option String :=
  match reqs with
  | [] => ([], none)
  | first :: _ =>
    (first.Header, if resp.StatusCode = 307 ∨ resp.StatusCode = 308 then first.Body else none)

/-- The jar stores each received cookie as a persistent host entry for path `/`,
replacing an entry of the same name and host. -/
def store (j : Jar) (u : URL) (cks : List Cookie) (now : Time) : Jar :=
  j.filter (fun e => !(cks.any (fun c => c.Name == e.Name && u.Host == e.Domain))) ++
  cks.map (fun c =>
    { Name := c.Name, Value := c.Value, Domain := u.Host, Path := "/", Persistent := true,
      Expires := c.Expires, Creation := now, LastAccess := now })

/-- Upstream of the specification scenario: the session endpoint answers 200 with a
session cookie expiring at instant 5000, the bill endpoint answers 200 with a balance. -/
def upstream (_ : List Request) (req : Request) : Except String Response :=
  if req.Method = "GET" then
    .ok { StatusCode := 200, Cookies := [{ Name := "session_token", Value := "abc", Expires := 5000 }],
          Body := "ok" }
  else .ok { StatusCode := 200, Body := "\x7b\"balance\":42\x7d" }

/-- A world with the given network. -/
def worldOf (rt : List Request → Request → Except String Response) : World :=
  { Parse := parse, Reference := reference, Redacted := redacted, Quote := quote,
    Follow := follow, RoundTrip := rt, SetCookies := store }

/-- The scenario world. -/
def world : World := worldOf upstream

/-- A world whose bill endpoint cannot be reached. -/
def worldDown : World :=
  worldOf (fun _ req =>
    if req.Method = "GET" then .ok { StatusCode := 503 } else .error "connection refused")

/-- A world whose session endpoint cannot be reached. -/
def worldNoSession : World :=
  worldOf (fun _ _ => .error "no such host")

/-- A world whose bill endpoint answers the POST with a redirect to another host, which
answers 200. -/
def worldMoved : World :=
  worldOf (fun _ req =>
    if req.URL.Host = "elsewhere.example" then .ok { StatusCode := 200, Body := "landing" }
    else if req.Method = "POST" then
      .ok { StatusCode := 302, Location := "https://elsewhere.example/landing", Body := "moved" }
    else .ok { StatusCode := 200, Body := "ok" })

/-- A world whose session endpoint answers every request with a redirect to itself. -/
def worldLoop : World :=
  worldOf (fun _ _ => .ok { StatusCode := 302, Location := "/api/v1/session-init" })

/-- Session state before any request. -/
def fresh : session.State := { Jar := [], APIBaseURL := base }

/-- Session state holding an unexpired session token for the upstream. -/
def withToken : session.State :=
  { Jar := [{ Name := "session_token", Value := "abc", Domain := host, Path := "/",
              Persistent := true, Expires := 5000, Creation := 900, LastAccess := 900 }]
    APIBaseURL := base }

/-- The bill inquiry of the specification scenario. -/
def post : InRequest :=
  { Method := "POST", Header := [("Origin", ["https://www.boheco2.com.ph"])],
    Body := .ok "\x7b\"account\":\"123\"\x7d" }

/-- A preflight request. -/
def preflight : InRequest :=
  { Method := "OPTIONS", Header := [("Origin", ["https://www.boheco2.com.ph"])] }

/-- A bill inquiry whose body cannot be read. -/
def broken : InRequest :=
  { Method := "POST", Body := .error "unexpected EOF" }

end Sample

/-! ## Lemmas on headers and the response writer -/

namespace http

theorem Header.lookup_Del_of_ne (h : Header) (key k : String) (hk : k ≠ key) :
    (Header.Del h key).lookup k = h.lookup k := by
  induction h with
  | nil => rfl
  | cons kv rest ih =>
    obtain ⟨a, b⟩ := kv
    unfold Header.Del at ih ⊢
    by_cases ha : a = key
    · subst ha
      have hne : (k == a) = false := by simpa using hk
      simp [List.filter, List.lookup, hne, ih]
    · have hne : (a != key) = true := by simpa using ha
      simp only [List.filter, hne, List.lookup]
      rw [ih]

theorem Header.lookup_Set_same (h : Header) (key value : String) :
    (Header.Set h key value).lookup key = some [value] := by
  simp [Header.Set, List.lookup]

theorem Header.lookup_Set_of_ne (h : Header) (key value k : String) (hk : k ≠ key) :
    (Header.Set h key value).lookup k = h.lookup k := by
  have hne : (k == key) = false := by simpa using hk
  simp only [Header.Set, List.lookup, hne]
  exact Header.lookup_Del_of_ne h key k hk

@[simp] theorem ResponseWriter.WriteHeader_Header (w : ResponseWriter) (code : Nat) :
    (w.WriteHeader code).Header = w.Header := by
  unfold ResponseWriter.WriteHeader; split <;> rfl

@[simp] theorem ResponseWriter.Write_Header (w : ResponseWriter) (b : String) :
    (w.Write b).Header = w.Header := by
  unfold ResponseWriter.Write; split <;> simp

@[simp] theorem Copy_Header (w : ResponseWriter) (b : String) : (Copy w b).Header = w.Header := by
  unfold Copy; split <;> simp

@[simp] theorem ResponseWriter.HeaderSet_wroteHeader (w : ResponseWriter) (k v : String) :
    (w.HeaderSet k v).wroteHeader = w.wroteHeader := rfl

@[simp] theorem ResponseWriter.HeaderSet_Body (w : ResponseWriter) (k v : String) :
    (w.HeaderSet k v).Body = w.Body := rfl

/-- A status code written on a fresh writer is the recorded one, and the body is empty. -/
theorem ResponseWriter.WriteHeader_fresh (w : ResponseWriter) (code : Nat)
    (hw : w.wroteHeader = false) :
    (w.WriteHeader code).wroteHeader = true ∧ (w.WriteHeader code).Code = code ∧
      (w.WriteHeader code).Body = w.Body := by
  simp [ResponseWriter.WriteHeader, hw]

/-- On a fresh writer `io.Copy` after `WriteHeader` leaves the status code and appends
exactly the copied bytes. -/
theorem Copy_WriteHeader_fresh (w : ResponseWriter) (code : Nat) (b : String)
    (hw : w.wroteHeader = false) (hb : w.Body = "") :
    (Copy (w.WriteHeader code) b).wroteHeader = true ∧
      (Copy (w.WriteHeader code) b).Code = code ∧ (Copy (w.WriteHeader code) b).Body = b := by
  unfold Copy
  split
  · rename_i h; simp [ResponseWriter.WriteHeader, hw, hb, h]
  · simp [ResponseWriter.WriteHeader, ResponseWriter.Write, hw, hb]

/-- On a fresh writer `http.Error` records the code and writes the message and a line
feed. -/
theorem Error_fresh (w : ResponseWriter) (msg : String) (code : Nat)
    (hw : w.wroteHeader = false) (hb : w.Body = "") :
    (Error w msg code).wroteHeader = true ∧ (Error w msg code).Code = code ∧
      (Error w msg code).Body = msg ++ "\n" := by
  simp [Error, ResponseWriter.WriteHeader, ResponseWriter.Write, ResponseWriter.HeaderSet, hw, hb]

/-- Go `http.Error` touches only the `Content-Length`, `Content-Type` and
`X-Content-Type-Options` headers. -/
theorem Error_Header_lookup (w : ResponseWriter) (msg : String) (code : Nat) (k : String)
    (h1 : k ≠ "Content-Length") (h2 : k ≠ "Content-Type") (h3 : k ≠ "X-Content-Type-Options") :
    (Error w msg code).Header.lookup k = w.Header.lookup k := by
  simp only [Error, ResponseWriter.Write_Header, ResponseWriter.WriteHeader_Header,
    ResponseWriter.HeaderSet]
  rw [Header.lookup_Set_of_ne _ _ _ _ h3, Header.lookup_Set_of_ne _ _ _ _ h2,
    Header.lookup_Del_of_ne _ _ _ h1]

end http

/-! ## Lemmas on the allow-list -/

namespace server

theorem IsOriginAllowed.loop_iff (o : String) (l : List String) :
    IsOriginAllowed.loop o l = true ↔ ∃ piece ∈ l, strings.TrimSpace piece = o := by
  induction l with
  | nil => simp [IsOriginAllowed.loop]
  | cons a rest ih =>
    unfold IsOriginAllowed.loop
    by_cases h : strings.TrimSpace a = o
    · simp [h]
    · have hne : (strings.TrimSpace a == o) = false := by simpa using h
      simp [hne, ih, h]

theorem IsOriginAllowed_iff (allowedOrigins o : String) :
    IsOriginAllowed allowedOrigins o = true ↔
      allowedOrigins = "*" ∨
        ∃ piece ∈ strings.SplitSeq allowedOrigins ',', strings.TrimSpace piece = o := by
  unfold IsOriginAllowed
  by_cases h : allowedOrigins = "*"
  · simp [h]
  · have hne : (allowedOrigins == "*") = false := by simpa using h
    simp [hne, h, IsOriginAllowed.loop_iff]

end server


/-! ## Lemmas on the session client -/

namespace cookiejar

/-- Every cookie returned by `Jar.Cookies` has the zero expiry. -/
theorem Jar.Cookies_Expires (j : Jar) (u : URL) (now : Time) :
    ∀ ck ∈ (Jar.Cookies j u now).1, ck.Expires = 0 := by
  intro ck hck
  unfold Jar.Cookies at hck
  split at hck
  · simp at hck
  · simp only [List.mem_map] at hck
    obtain ⟨e, _, rfl⟩ := hck
    rfl

end cookiejar

namespace session

theorem HasToken.loop_eq_false (now : Time) (l : List Cookie)
    (h : ∀ ck ∈ l, ck.Expires = 0) : HasToken.loop now l = false := by
  induction l with
  | nil => rfl
  | cons ck rest ih =>
    have h0 : ck.Expires = 0 := h ck (List.mem_cons_self _ _)
    have hrest : ∀ c ∈ rest, c.Expires = 0 := fun c hc => h c (List.mem_cons_of_mem _ hc)
    simp [HasToken.loop, h0, ih hrest]

/-- Source `HasToken` never answers true: the cookies it inspects carry no expiry. -/
theorem HasToken_eq_some (W : World) (S : State) (now : Time) (b : Bool) (S1 : State)
    (h : HasToken W S now = some (b, S1)) : b = false := by
  unfold HasToken at h
  split at h
  · simp at h
  · rename_i u _
    simp only [Option.some.injEq, Prod.mk.injEq] at h
    rw [← h.1]
    exact HasToken.loop_eq_false now _ (Jar.Cookies_Expires S.Jar u now)

/-- Source `HasToken` answers false whenever the base URL parses. -/
theorem HasToken_of_parse (W : World) (S : State) (now : Time) (u : URL)
    (h : W.Parse S.APIBaseURL = .ok u) :
    HasToken W S now = some (false, { S with Jar := (S.Jar.Cookies u now).2 }) := by
  unfold HasToken
  simp only [h]
  rw [HasToken.loop_eq_false now _ (Jar.Cookies_Expires S.Jar u now)]

theorem foldl_AddCookie (cks : List Cookie) (req : Request) :
    (cks.foldl Request.AddCookie req).Method = req.Method ∧
      (cks.foldl Request.AddCookie req).rawURL = req.rawURL ∧
      (cks.foldl Request.AddCookie req).URL = req.URL ∧
      (cks.foldl Request.AddCookie req).Header = req.Header ∧
      (cks.foldl Request.AddCookie req).Body = req.Body := by
  induction cks generalizing req with
  | nil => simp
  | cons c rest ih =>
    simp only [List.foldl_cons]
    have := ih (req.AddCookie c)
    simpa [Request.AddCookie] using this

/-- Attaching cookies changes nothing but the cookies. -/
theorem withCookies_fields (S : State) (now : Time) (req : Request) :
    (withCookies S now req).Method = req.Method ∧
      (withCookies S now req).rawURL = req.rawURL ∧
      (withCookies S now req).URL = req.URL ∧
      (withCookies S now req).Header = req.Header ∧
      (withCookies S now req).Body = req.Body :=
  foldl_AddCookie _ req

/-- Whether a response is a redirect does not depend on the request method. -/
theorem redirectBehavior_snd (m : String) (resp : Response) :
    (redirectBehavior m resp).2 = (redirectBehavior "GET" resp).2 := by
  unfold redirectBehavior
  split
  · rfl
  · split <;> rfl

/-- The followed request keeps the method or becomes a GET. -/
theorem redirectBehavior_fst (m : String) (resp : Response)
    (h : (redirectBehavior m resp).2 = true) :
    (redirectBehavior m resp).1 = m ∨ (redirectBehavior m resp).1 = "GET" := by
  unfold redirectBehavior at h ⊢
  split
  · simp only
    split
    · exact Or.inr rfl
    · exact Or.inl rfl
  · rename_i h1
    split
    · exact Or.inl rfl
    · rename_i h2
      simp [h1, h2] at h

theorem absorbed_withCookies (W : World) (S : State) (now : Time) (req : Request)
    (resp : Response) :
    absorbed W S now (withCookies S now req) resp = absorbed W S now req resp := by
  simp [absorbed, (withCookies_fields S now req).2.2.1]

/-- The four outcomes of one turn of the loop of `Client.do`. -/
theorem hop_cases (W : World) (now : Time) (op : String) (S : State)
    (hist reqs : List Request) (req : Request) :
    (∃ e, W.RoundTrip hist (withCookies S now req) = .error e ∧
      hop W now op S hist reqs req =
        .done (.error (urlError W op (W.Redacted req.URL) e))
          { S with Jar := (S.Jar.Cookies req.URL now).2 }
          (.roundTrip (withCookies S now req) (.error e))) ∨
    (∃ resp, W.RoundTrip hist (withCookies S now req) = .ok resp ∧ resp.followed = false ∧
      hop W now op S hist reqs req =
        .done (.ok resp) (absorbed W S now req resp)
          (.roundTrip (withCookies S now req) (.ok resp))) ∨
    (∃ resp perr, W.RoundTrip hist (withCookies S now req) = .ok resp ∧
      resp.followed = true ∧ W.Reference req.URL resp.Location = .error perr ∧
      hop W now op S hist reqs req =
        .done (.error (urlError W op (W.Redacted req.URL)
            ("failed to parse Location header " ++ W.Quote resp.Location ++ ": " ++ perr)))
          (absorbed W S now req resp) (.roundTrip (withCookies S now req) (.ok resp))) ∨
    (∃ resp u next, W.RoundTrip hist (withCookies S now req) = .ok resp ∧
      resp.followed = true ∧ W.Reference req.URL resp.Location = .ok u ∧
      (next.Method = req.Method ∨ next.Method = "GET") ∧ next.URL = u ∧
      next.rawURL = resp.Location ∧
      hop W now op S hist reqs req =
        .follow (absorbed W S now req resp) (.roundTrip (withCookies S now req) (.ok resp))
          (withCookies S now req) resp.Location next) := by
  simp only [hop]
  cases hrt : W.RoundTrip hist (withCookies S now req) with
  | error e => left; exact ⟨e, rfl, rfl⟩
  | ok resp =>
    right
    simp only
    cases hsr : (redirectBehavior req.Method resp).2 with
    | false =>
      left
      refine ⟨resp, rfl, ?_, by simp⟩
      simp [Response.followed, ← redirectBehavior_snd req.Method resp, hsr]
    | true =>
      by_cases hloc : resp.Location = ""
      · left
        refine ⟨resp, rfl, ?_, by simp [hloc]⟩
        simp [Response.followed, hloc]
      · right
        have hne : (resp.Location == "") = false := by simpa using hloc
        have hfol : resp.followed = true := by
          simp [Response.followed, ← redirectBehavior_snd req.Method resp, hsr, hloc]
        cases href : W.Reference req.URL resp.Location with
        | error perr =>
          left
          exact ⟨resp, perr, rfl, hfol, href, by simp [hne, hsr, href]⟩
        | ok u =>
          right
          exact ⟨resp, u,
            { Method := (redirectBehavior req.Method resp).1, rawURL := resp.Location, URL := u,
              Header := (W.Follow (reqs ++ [withCookies S now req]) resp u).1,
              Body := (W.Follow (reqs ++ [withCookies S now req]) resp u).2 },
            rfl, hfol, href, redirectBehavior_fst req.Method resp hsr, rfl, rfl,
            by simp [hne, hsr, href]⟩

theorem mem_dropLast_or_getLast? {α : Type} (l : List α) (a : α) (h : a ∈ l) :
    a ∈ l.dropLast ∨ l.getLast? = some a := by
  induction l with
  | nil => simp at h
  | cons x xs ih =>
    cases xs with
    | nil =>
      simp only [List.mem_singleton] at h
      right; simp [h]
    | cons y ys =>
      simp only [List.mem_cons] at h
      rcases h with h | h
      · left; simp [h]
      · have := ih (by simpa using h)
        rcases this with h' | h'
        · left; simp [List.dropLast, h']
        · right; simpa using h'

theorem ClientDo.loop_of_done (W : World) (now : Time) (op : String) (left : Nat)
    (S : State) (hist reqs : List Request) (req : Request)
    (res : Except String Response) (S1 : State) (ev : Event)
    (h : hop W now op S hist reqs req = .done res S1 ev) :
    ClientDo.loop W now op left S hist reqs req = (res, S1, [ev]) := by
  cases left <;> simp [ClientDo.loop, h]

theorem ClientDo.loop_zero_follow (W : World) (now : Time) (op : String)
    (S : State) (hist reqs : List Request) (req : Request)
    (S1 : State) (ev : Event) (sent : Request) (loc : String) (next : Request)
    (h : hop W now op S hist reqs req = .follow S1 ev sent loc next) :
    ClientDo.loop W now op 0 S hist reqs req =
      (.error (urlError W op loc "stopped after 10 redirects"), S1, [ev]) := by
  simp [ClientDo.loop, h]

theorem ClientDo.loop_succ_follow (W : World) (now : Time) (op : String) (left : Nat)
    (S : State) (hist reqs : List Request) (req : Request)
    (S1 : State) (ev : Event) (sent : Request) (loc : String) (next : Request)
    (h : hop W now op S hist reqs req = .follow S1 ev sent loc next) :
    ClientDo.loop W now op (left + 1) S hist reqs req =
      ((ClientDo.loop W now op left S1 (hist ++ [sent]) (reqs ++ [sent]) next).1,
       (ClientDo.loop W now op left S1 (hist ++ [sent]) (reqs ++ [sent]) next).2.1,
       ev :: (ClientDo.loop W now op left S1 (hist ++ [sent]) (reqs ++ [sent]) next).2.2) := by
  simp [ClientDo.loop, h]

/-- A single exchange is a chain. -/
theorem RedirectChain_single (S : State) (now : Time) (n : Nat) (req : Request)
    (r : Except String Response) :
    RedirectChain S now (n + 1) req [.roundTrip (withCookies S now req) r] := by
  refine ⟨⟨r, [], rfl⟩, ?_, ?_, ?_, ?_⟩
  · intro e he
    simp only [List.mem_singleton] at he
    subst he; rfl
  · intro q r' hq
    simp only [List.mem_singleton, Event.roundTrip.injEq] at hq
    left; rw [hq.1]; exact (withCookies_fields S now req).1
  · intro e he
    simp at he
  · simp

/-- The loop of `Client.do` yields a redirect chain, ends in one of the four ways and
leaves the state that replaying its exchanges gives. -/
theorem ClientDo.loop_chain (W : World) (now : Time) (op : String) (left : Nat) :
    ∀ (S : State) (hist reqs : List Request) (req : Request),
      RedirectChain S now (left + 1) req (ClientDo.loop W now op left S hist reqs req).2.2 ∧
      Ended W op (left + 1) (ClientDo.loop W now op left S hist reqs req).1
        (ClientDo.loop W now op left S hist reqs req).2.2 ∧
      (ClientDo.loop W now op left S hist reqs req).2.1 =
        replay W now S (ClientDo.loop W now op left S hist reqs req).2.2 := by
  induction left with
  | zero =>
    intro S hist reqs req
    have hU := (withCookies_fields S now req).2.2.1
    rcases hop_cases W now op S hist reqs req with
      ⟨e, _, hh⟩ | ⟨resp, _, hf, hh⟩ | ⟨resp, perr, _, hf, href, hh⟩ |
        ⟨resp, u, next, _, hf, href, _, _, _, hh⟩
    · rw [ClientDo.loop_of_done W now op 0 S hist reqs req _ _ _ hh]
      refine ⟨RedirectChain_single S now 0 req _, Or.inl ⟨_, e, rfl, by rw [hU]⟩, ?_⟩
      simp [replay, hU]
    · rw [ClientDo.loop_of_done W now op 0 S hist reqs req _ _ _ hh]
      refine ⟨RedirectChain_single S now 0 req _, Or.inr (Or.inl ⟨_, resp, rfl, hf, rfl⟩), ?_⟩
      simp [replay, absorbed_withCookies]
    · rw [ClientDo.loop_of_done W now op 0 S hist reqs req _ _ _ hh]
      refine ⟨RedirectChain_single S now 0 req _,
        Or.inr (Or.inr (Or.inl ⟨_, resp, perr, rfl, hf, by rw [hU]; exact href, by rw [hU]⟩)), ?_⟩
      simp [replay, absorbed_withCookies]
    · rw [ClientDo.loop_zero_follow W now op S hist reqs req _ _ _ _ _ hh]
      refine ⟨RedirectChain_single S now 0 req _,
        Or.inr (Or.inr (Or.inr ⟨_, resp, rfl, hf, rfl, rfl⟩)), ?_⟩
      simp [replay, absorbed_withCookies]
  | succ n ih =>
    intro S hist reqs req
    have hU := (withCookies_fields S now req).2.2.1
    rcases hop_cases W now op S hist reqs req with
      ⟨e, _, hh⟩ | ⟨resp, _, hf, hh⟩ | ⟨resp, perr, _, hf, href, hh⟩ |
        ⟨resp, u, next, _, hf, href, hm, _, _, hh⟩
    · rw [ClientDo.loop_of_done W now op (n + 1) S hist reqs req _ _ _ hh]
      refine ⟨RedirectChain_single S now (n + 1) req _, Or.inl ⟨_, e, rfl, by rw [hU]⟩, ?_⟩
      simp [replay, hU]
    · rw [ClientDo.loop_of_done W now op (n + 1) S hist reqs req _ _ _ hh]
      refine ⟨RedirectChain_single S now (n + 1) req _, Or.inr (Or.inl ⟨_, resp, rfl, hf, rfl⟩), ?_⟩
      simp [replay, absorbed_withCookies]
    · rw [ClientDo.loop_of_done W now op (n + 1) S hist reqs req _ _ _ hh]
      refine ⟨RedirectChain_single S now (n + 1) req _,
        Or.inr (Or.inr (Or.inl ⟨_, resp, perr, rfl, hf, by rw [hU]; exact href, by rw [hU]⟩)), ?_⟩
      simp [replay, absorbed_withCookies]
    · rw [ClientDo.loop_succ_follow W now op n S hist reqs req _ _ _ _ _ hh]
      obtain ⟨⟨⟨r0, tail, hev⟩, hnb, hmeth, hinner, hlen⟩, hend, hst⟩ :=
        ih (absorbed W S now req resp) (hist ++ [withCookies S now req])
          (reqs ++ [withCookies S now req]) next
      generalize ClientDo.loop W now op n (absorbed W S now req resp)
        (hist ++ [withCookies S now req]) (reqs ++ [withCookies S now req]) next = out
        at hev hnb hmeth hinner hlen hend hst
      obtain ⟨res, S2, evs⟩ := out
      simp only at hev hnb hmeth hinner hlen hend hst ⊢
      subst hev
      refine ⟨⟨⟨_, _, rfl⟩, ?_, ?_, ?_, ?_⟩, ?_, ?_⟩
      · intro e he
        simp only [List.mem_cons] at he
        rcases he with he | he
        · subst he; rfl
        · exact hnb e (by simpa using he)
      · intro q r hq
        simp only [List.mem_cons, Event.roundTrip.injEq] at hq
        rcases hq with ⟨hq, _⟩ | hq
        · left; rw [hq]; exact (withCookies_fields S now req).1
        · have := hmeth q r (by simpa using hq)
          rcases this with h1 | h1
          · rcases hm with h2 | h2
            · left; rw [h1, h2]
            · right; rw [h1, h2]
          · right; exact h1
      · intro e he
        simp only [List.dropLast_cons₂, List.mem_cons] at he
        rcases he with he | he
        · exact ⟨_, resp, he, hf⟩
        · exact hinner e he
      · simp only [List.length_cons] at hlen ⊢
        omega
      · simp only [Ended, List.getLast?_cons_cons, List.length_cons] at hend ⊢
        rcases hend with h | h | h | ⟨q, resp', h1, h2, h3, h4⟩
        · exact Or.inl h
        · exact Or.inr (Or.inl h)
        · exact Or.inr (Or.inr (Or.inl h))
        · exact Or.inr (Or.inr (Or.inr ⟨q, resp', h1, h2, h3, by omega⟩))
      · rw [hst]
        simp [replay, absorbed_withCookies]

theorem ClientDo.loop_head (W : World) (now : Time) (op : String) (left : Nat)
    (S : State) (hist reqs : List Request) (req : Request) :
    (ClientDo.loop W now op left S hist reqs req).2.2.head? =
      some (.roundTrip (withCookies S now req) (W.RoundTrip hist (withCookies S now req))) := by
  rcases hop_cases W now op S hist reqs req with
    ⟨e, hrt, hh⟩ | ⟨resp, hrt, _, hh⟩ | ⟨resp, perr, hrt, _, _, hh⟩ |
      ⟨resp, u, next, hrt, _, _, _, _, _, hh⟩
  · rw [ClientDo.loop_of_done W now op left S hist reqs req _ _ _ hh, hrt]; rfl
  · rw [ClientDo.loop_of_done W now op left S hist reqs req _ _ _ hh, hrt]; rfl
  · rw [ClientDo.loop_of_done W now op left S hist reqs req _ _ _ hh, hrt]; rfl
  · cases left with
    | zero => rw [ClientDo.loop_zero_follow W now op S hist reqs req _ _ _ _ _ hh, hrt]; rfl
    | succ n => rw [ClientDo.loop_succ_follow W now op n S hist reqs req _ _ _ _ _ hh, hrt]; rfl

/-- A call of `Client.Do` yields a redirect chain of at most ten exchanges, ends in one of
the four ways and leaves the state that replaying its exchanges gives. -/
theorem ClientDo_chain (W : World) (S : State) (now : Time) (hist : List Request)
    (req : Request) :
    RedirectChain S now 10 req (ClientDo W S now hist req).2.2 ∧
      Ended W (urlErrorOp req.Method) 10 (ClientDo W S now hist req).1
        (ClientDo W S now hist req).2.2 ∧
      (ClientDo W S now hist req).2.1 = replay W now S (ClientDo W S now hist req).2.2 :=
  ClientDo.loop_chain W now (urlErrorOp req.Method) 9 S hist [] req

/-- In a redirect chain a failed exchange is the last one, and its wrapped error is the
result of the call. -/
theorem RedirectChain.error_last (W : World) (op : String) (S : State) (now : Time) (n : Nat)
    (req : Request) (res : Except String Response) (ev : List Event)
    (hc : RedirectChain S now n req ev) (he : Ended W op n res ev)
    (p : Request) (e : String) (hmem : Event.roundTrip p (.error e) ∈ ev) :
    ev.getLast? = some (.roundTrip p (.error e)) ∧
      res = .error (urlError W op (W.Redacted p.URL) e) := by
  obtain ⟨_, _, _, hinner, _⟩ := hc
  rcases mem_dropLast_or_getLast? ev _ hmem with h | h
  · obtain ⟨q, resp, hq, _⟩ := hinner _ h
    simp at hq
  · refine ⟨h, ?_⟩
    rcases he with ⟨q, e', h1, h2⟩ | ⟨q, resp, h1, _, _⟩ | ⟨q, resp, perr, h1, _, _, _⟩ |
        ⟨q, resp, h1, _, _, _⟩
    · rw [h] at h1
      simp only [Option.some.injEq, Event.roundTrip.injEq, Except.error.injEq] at h1
      rw [h1.1, h1.2]; exact h2
    · rw [h] at h1; simp at h1
    · rw [h] at h1; simp at h1
    · rw [h] at h1; simp at h1

/-- A returned response is the answer of the last exchange and is not followed. -/
theorem Ended.of_ok (W : World) (op : String) (n : Nat) (resp : Response) (ev : List Event)
    (he : Ended W op n (.ok resp) ev) :
    (∃ q, ev.getLast? = some (.roundTrip q (.ok resp))) ∧ resp.followed = false := by
  rcases he with ⟨_, _, _, h2⟩ | ⟨q, resp', h1, hf, h2⟩ | ⟨_, _, _, _, _, _, h2⟩ |
      ⟨_, _, _, _, h2, _⟩
  · simp at h2
  · simp only [Except.ok.injEq] at h2
    subst h2
    exact ⟨⟨q, h1⟩, hf⟩
  · simp at h2
  · simp at h2

/-- The ways `Initialize` can go: the request cannot be built, or the session client is
called on the GET and its outcome decides. -/
theorem Initialize_cases (W : World) (S : State) (now : Time) (hist : List Request) :
    (∃ e, http.NewRequest W "GET" (S.APIBaseURL ++ "/api/v1/session-init") none = .error e ∧
        Initialize W S now hist = (some e, S, [.bootstrap])) ∨
    (∃ u req res S1 chain, W.Parse (S.APIBaseURL ++ "/api/v1/session-init") = .ok u ∧
        req.Method = "GET" ∧ req.rawURL = S.APIBaseURL ++ "/api/v1/session-init" ∧
        req.URL = u ∧ req.Body = none ∧
        chain.head? = some (.roundTrip (withCookies S now req)
          (W.RoundTrip hist (withCookies S now req))) ∧
        RedirectChain S now 10 req chain ∧ Ended W "Get" 10 res chain ∧
        S1 = replay W now S chain ∧
        Initialize W S now hist = (errorOf res, S1, .bootstrap :: chain)) := by
  simp only [Initialize, http.NewRequest]
  cases hp : W.Parse (S.APIBaseURL ++ "/api/v1/session-init") with
  | error e => left; exact ⟨e, rfl, rfl⟩
  | ok u =>
    right
    simp only
    obtain ⟨req, hreq⟩ : ∃ req : Request, req =
        ((({ Method := "GET", rawURL := S.APIBaseURL ++ "/api/v1/session-init", URL := u,
              Body := none } : Request).HeaderSet "Accept"
            "application/json, text/plain, */*").HeaderSet "Origin"
            "https://www.boheco2.com.ph").HeaderSet "Referer" "https://www.boheco2.com.ph" :=
      ⟨_, rfl⟩
    rw [← hreq]
    have hM : req.Method = "GET" := by rw [hreq]; rfl
    have hR : req.rawURL = S.APIBaseURL ++ "/api/v1/session-init" := by rw [hreq]; rfl
    have hU : req.URL = u := by rw [hreq]; rfl
    have hB : req.Body = none := by rw [hreq]; rfl
    have hop : urlErrorOp req.Method = "Get" := by rw [hM]; decide
    obtain ⟨hc, he, hs⟩ := ClientDo_chain W S now hist req
    have hh : (ClientDo W S now hist req).2.2.head? = _ :=
      ClientDo.loop_head W now (urlErrorOp req.Method) 9 S hist [] req
    rw [hop] at he
    rcases hcd : ClientDo W S now hist req with ⟨res, S1, chain⟩
    rw [hcd] at hc he hs hh
    simp only at hc he hs hh
    refine ⟨u, req, res, S1, chain, rfl, hM, hR, hU, hB, hh, hc, he, hs, ?_⟩
    cases res <;> rfl

end session

/-! ## Lemmas on the handler -/

theorem handler.cors_fresh (allowedOrigins : String) (r : InRequest) :
    (handler.cors allowedOrigins r).wroteHeader = false ∧
      (handler.cors allowedOrigins r).Body = "" := by
  simp only [handler.cors]
  split <;> exact ⟨rfl, rfl⟩

theorem handler.cors_allow_origin (allowedOrigins : String) (r : InRequest) :
    (handler.cors allowedOrigins r).Header.lookup "Access-Control-Allow-Origin" =
      if server.IsOriginAllowed allowedOrigins (r.Header.Get "Origin") then
        some [r.Header.Get "Origin"]
      else none := by
  simp only [handler.cors, ResponseWriter.HeaderSet]
  rw [Header.lookup_Set_of_ne _ _ _ _ (by decide), Header.lookup_Set_of_ne _ _ _ _ (by decide)]
  split
  · exact Header.lookup_Set_same _ _ _
  · rfl

theorem handler.cors_allow_methods (allowedOrigins : String) (r : InRequest) :
    (handler.cors allowedOrigins r).Header.lookup "Access-Control-Allow-Methods" =
        some ["POST, OPTIONS"] ∧
      (handler.cors allowedOrigins r).Header.lookup "Access-Control-Allow-Headers" =
        some ["Content-Type, Authorization"] := by
  simp only [handler.cors, ResponseWriter.HeaderSet]
  constructor
  · rw [Header.lookup_Set_of_ne _ _ _ _ (by decide)]
    exact Header.lookup_Set_same _ _ _
  · exact Header.lookup_Set_same _ _ _

/-- The ways lines 60 to 91 can go: unreadable body, request cannot be built, or the
session client is called on the POST and its error or response is answered. -/
theorem handler.forward_cases (W : World) (apiBaseURL : String) (w : ResponseWriter)
    (S : session.State) (now : Time) (hist : List Request) (ev : List Event) (r : InRequest) :
    (∃ e, r.Body = .error e ∧
        handler.forward W apiBaseURL w S now hist ev r =
          { w := http.Error w "Failed to read request body" 400, S := S, events := ev }) ∨
    (∃ b e, r.Body = .ok b ∧
        http.NewRequest W "POST" (apiBaseURL ++ "/api/v1/bill") (some b) = .error e ∧
        handler.forward W apiBaseURL w S now hist ev r =
          { w := http.Error w e 500, S := S, events := ev }) ∨
    (∃ b u req msg S1 chain, r.Body = .ok b ∧ W.Parse (apiBaseURL ++ "/api/v1/bill") = .ok u ∧
        req.Method = "POST" ∧ req.rawURL = apiBaseURL ++ "/api/v1/bill" ∧ req.URL = u ∧
        req.Body = some b ∧ session.RedirectChain S now 10 req chain ∧
        session.Ended W "Post" 10 (.error msg) chain ∧
        handler.forward W apiBaseURL w S now hist ev r =
          { w := http.Error w msg 502, S := S1, events := ev ++ chain,
            upstream := some (.error msg) }) ∨
    (∃ b u req resp S1 chain, r.Body = .ok b ∧ W.Parse (apiBaseURL ++ "/api/v1/bill") = .ok u ∧
        req.Method = "POST" ∧ req.rawURL = apiBaseURL ++ "/api/v1/bill" ∧ req.URL = u ∧
        req.Body = some b ∧ session.RedirectChain S now 10 req chain ∧
        session.Ended W "Post" 10 (.ok resp) chain ∧
        handler.forward W apiBaseURL w S now hist ev r =
          { w := http.Copy (w.WriteHeader resp.StatusCode) resp.Body, S := S1,
            events := ev ++ chain, upstream := some (.ok resp) }) := by
  simp only [handler.forward, http.NewRequest]
  cases hb : r.Body with
  | error e => left; exact ⟨e, rfl, rfl⟩
  | ok b =>
    right
    simp only
    cases hp : W.Parse (apiBaseURL ++ "/api/v1/bill") with
    | error e => left; exact ⟨b, e, rfl, rfl, rfl⟩
    | ok u =>
      right
      simp only
      obtain ⟨req, hreq⟩ : ∃ req : Request, req =
          (((({ Method := "POST", rawURL := apiBaseURL ++ "/api/v1/bill", URL := u,
                Body := some b } : Request).HeaderSet "Accept"
              "application/json, text/plain, */*").HeaderSet "Origin"
              "https://www.boheco2.com.ph").HeaderSet "Referer"
              "https://www.boheco2.com.ph").HeaderSet "Content-Type" "application/json" :=
        ⟨_, rfl⟩
      rw [← hreq]
      have hM : req.Method = "POST" := by rw [hreq]; rfl
      have hR : req.rawURL = apiBaseURL ++ "/api/v1/bill" := by rw [hreq]; rfl
      have hU : req.URL = u := by rw [hreq]; rfl
      have hB : req.Body = some b := by rw [hreq]; rfl
      have hop : urlErrorOp req.Method = "Post" := by rw [hM]; decide
      obtain ⟨hc, he, _⟩ := session.ClientDo_chain W S now (hist ++ Event.requests ev) req
      rw [hop] at he
      rcases hcd : session.ClientDo W S now (hist ++ Event.requests ev) req with
        ⟨res, S1, chain⟩
      rw [hcd] at hc he
      simp only at hc he
      cases res with
      | error msg => left; exact ⟨b, u, req, msg, S1, chain, rfl, rfl, hM, hR, hU, hB, hc, he, rfl⟩
      | ok resp => right; exact ⟨b, u, req, resp, S1, chain, rfl, rfl, hM, hR, hU, hB, hc, he, rfl⟩

/-- The ways a run on a request other than OPTIONS can go before the forwarding part. -/
theorem handler_cases (W : World) (allowedOrigins apiBaseURL : String) (S : session.State)
    (now : Time) (hist : List Request) (r : InRequest) (hm : r.Method ≠ "OPTIONS") :
    (session.HasToken W S now = none ∧
        handler W allowedOrigins apiBaseURL S now hist r =
          { w := handler.cors allowedOrigins r, S := S, events := [], panicked := true }) ∨
    (∃ S1 e S2 ev, session.HasToken W S now = some (false, S1) ∧
        session.Initialize W S1 now hist = (some e, S2, ev) ∧
        handler W allowedOrigins apiBaseURL S now hist r =
          { w := http.Error (handler.cors allowedOrigins r) ("Failed to init session: " ++ e) 500,
            S := S2, events := ev }) ∨
    (∃ S1 S2 ev, session.HasToken W S now = some (false, S1) ∧
        session.Initialize W S1 now hist = (none, S2, ev) ∧
        handler W allowedOrigins apiBaseURL S now hist r =
          handler.forward W apiBaseURL (handler.cors allowedOrigins r) S2 now hist ev r) := by
  have hne : (r.Method == "OPTIONS") = false := by simpa using hm
  unfold handler
  simp only [hne]
  cases ht : session.HasToken W S now with
  | none => left; exact ⟨rfl, rfl⟩
  | some p =>
    obtain ⟨b, S1⟩ := p
    have hb := session.HasToken_eq_some W S now b S1 ht
    subst hb
    right
    rcases hi : session.Initialize W S1 now hist with ⟨err, S2, ev⟩
    cases err with
    | some e => left; exact ⟨S1, e, S2, ev, rfl, hi, by simp [hi]⟩
    | none => right; exact ⟨S1, S2, ev, rfl, hi, by simp [hi]⟩


namespace session

/-- The events and the returned error of `Initialize`, read off a known result. -/
theorem Initialize_shape (W : World) (S : State) (now : Time) (hist : List Request)
    (err : Option String) (S2 : State) (ev : List Event)
    (h : Initialize W S now hist = (err, S2, ev)) :
    (∃ e, http.NewRequest W "GET" (S.APIBaseURL ++ "/api/v1/session-init") none = .error e ∧
        err = some e ∧ ev = [.bootstrap]) ∨
    (∃ req res chain, req.Method = "GET" ∧
        req.rawURL = S.APIBaseURL ++ "/api/v1/session-init" ∧
        W.Parse (S.APIBaseURL ++ "/api/v1/session-init") = .ok req.URL ∧
        ev = .bootstrap :: chain ∧ RedirectChain S now 10 req chain ∧
        Ended W "Get" 10 res chain ∧ err = errorOf res) := by
  rcases Initialize_cases W S now hist with
    ⟨e, hN, hI⟩ | ⟨u, req, res, S1, chain, hP, hM, hR, hU, _, _, hc, he, _, hI⟩
  · rw [hI] at h
    simp only [Prod.mk.injEq] at h
    exact Or.inl ⟨e, hN, h.1.symm, h.2.2.symm⟩
  · rw [hI] at h
    simp only [Prod.mk.injEq] at h
    exact Or.inr ⟨req, res, chain, hM, hR, by rw [hU]; exact hP, h.2.2.symm, hc, he, h.1.symm⟩

/-- A redirect chain started on a GET holds GET exchanges only. -/
theorem RedirectChain.all_get (S : State) (now : Time) (n : Nat) (req : Request)
    (ev : List Event) (hc : RedirectChain S now n req ev) (hm : req.Method = "GET") :
    ∀ e ∈ ev, Event.isCall "GET" e = true := by
  obtain ⟨_, hnb, hmeth, _, _⟩ := hc
  intro e he
  cases e with
  | bootstrap => exact absurd (hnb _ he) (by simp [Event.isBootstrap])
  | roundTrip q r =>
    have := hmeth q r he
    rw [hm] at this
    simp only [or_self] at this
    simp [Event.isCall, this]

theorem isCall_POST_of_GET (e : Event) (h : Event.isCall "GET" e = true) :
    Event.isCall "POST" e = false := by
  cases e with
  | bootstrap => rfl
  | roundTrip q r =>
    simp only [Event.isCall, beq_iff_eq] at h
    simp [Event.isCall, h]

end session

/-- No step of the handler changes the headers other than those `http.Error` sets. -/
theorem handler_Header_lookup (W : World) (allowedOrigins apiBaseURL : String)
    (S : session.State) (now : Time) (hist : List Request) (r : InRequest) (k : String)
    (h1 : k ≠ "Content-Length") (h2 : k ≠ "Content-Type")
    (h3 : k ≠ "X-Content-Type-Options") :
    (handler W allowedOrigins apiBaseURL S now hist r).w.Header.lookup k =
      (handler.cors allowedOrigins r).Header.lookup k := by
  by_cases hm : r.Method = "OPTIONS"
  · simp [handler, hm]
  · rcases handler_cases W allowedOrigins apiBaseURL S now hist r hm with
      ⟨_, hrun⟩ | ⟨S1, e, S2, ev, _, _, hrun⟩ | ⟨S1, S2, ev, _, _, hrun⟩
    · rw [hrun]
    · rw [hrun]
      exact Error_Header_lookup _ _ _ k h1 h2 h3
    · rw [hrun]
      rcases handler.forward_cases W apiBaseURL (handler.cors allowedOrigins r) S2 now hist ev r
        with ⟨e, _, hf⟩ | ⟨b, e, _, _, hf⟩ | ⟨b, u, p, e, S3, c, _, _, _, _, _, _, _, _, hf⟩ |
          ⟨b, u, p, resp, S3, c, _, _, _, _, _, _, _, _, hf⟩
      · rw [hf]; exact Error_Header_lookup _ _ _ k h1 h2 h3
      · rw [hf]; exact Error_Header_lookup _ _ _ k h1 h2 h3
      · rw [hf]; exact Error_Header_lookup _ _ _ k h1 h2 h3
      · rw [hf]; simp

/-- A failed bootstrap ends the run with status 500, the prefixed error text and no POST. -/
theorem handler_bootstrap_failure (W : World) (allowedOrigins apiBaseURL : String)
    (S : session.State) (now : Time) (hist : List Request) (r : InRequest)
    (S1 : session.State) (e : String)
    (hm : r.Method ≠ "OPTIONS")
    (ht : session.HasToken W S now = some (false, S1))
    (hi : (session.Initialize W S1 now hist).1 = some e) :
    (handler W allowedOrigins apiBaseURL S now hist r).w.wroteHeader = true ∧
    (handler W allowedOrigins apiBaseURL S now hist r).w.Code = 500 ∧
    (handler W allowedOrigins apiBaseURL S now hist r).w.Body =
      "Failed to init session: " ++ e ++ "\n" ∧
    e.data <:+: (handler W allowedOrigins apiBaseURL S now hist r).w.Body.data ∧
    ∀ ev ∈ (handler W allowedOrigins apiBaseURL S now hist r).events,
      Event.isCall "POST" ev = false := by
  have hfresh := handler.cors_fresh allowedOrigins r
  rcases handler_cases W allowedOrigins apiBaseURL S now hist r hm with
    ⟨hnone, _⟩ | ⟨S1', e', S2, ev, ht1, hi1, hrun⟩ | ⟨S1', S2, ev, ht1, hi1, _⟩
  · rw [ht] at hnone; simp at hnone
  · rw [ht] at ht1
    simp only [Option.some.injEq, Prod.mk.injEq, true_and] at ht1
    subst ht1
    rw [hi1] at hi
    simp only [Option.some.injEq] at hi
    subst hi
    have herr := Error_fresh (handler.cors allowedOrigins r) ("Failed to init session: " ++ e')
      500 hfresh.1 hfresh.2
    rw [hrun]
    refine ⟨herr.1, herr.2.1, herr.2.2, ?_, ?_⟩
    · rw [herr.2.2]
      simp only [String.data_append]
      exact ⟨"Failed to init session: ".data, "\n".data, rfl⟩
    · rcases session.Initialize_shape W _ now hist _ _ _ hi1 with
        ⟨_, _, _, hev⟩ | ⟨req, res, chain, hM, _, _, hev, hc, _, _⟩
      · subst hev; simp [Event.isCall]
      · subst hev
        intro x hx
        simp only [List.mem_cons] at hx
        rcases hx with hx | hx
        · subst hx; rfl
        · exact session.isCall_POST_of_GET x (session.RedirectChain.all_get _ now 10 req chain hc hM x hx)
  · rw [ht] at ht1
    simp only [Option.some.injEq, Prod.mk.injEq, true_and] at ht1
    subst ht1
    rw [hi1] at hi
    simp at hi

theorem filter_isBootstrap_eq_nil (l : List Event)
    (h : ∀ e ∈ l, Event.isBootstrap e = false) : l.filter Event.isBootstrap = [] := by
  induction l with
  | nil => rfl
  | cons a rest ih =>
    have ha : Event.isBootstrap a = false := h a (List.mem_cons_self _ _)
    have hr : ∀ e ∈ rest, Event.isBootstrap e = false :=
      fun e he => h e (List.mem_cons_of_mem _ he)
    simp [List.filter, ha, ih hr]

theorem isBootstrap_of_isCall (m : String) (e : Event) (h : Event.isCall m e = true) :
    Event.isBootstrap e = false := by
  cases e with
  | bootstrap => simp [Event.isCall] at h
  | roundTrip q r => rfl

/-- After a bootstrap that returned nil, the events are the bootstrap and a chain of GET
exchanges whose last response was returned by the client. -/
theorem session.Initialize_nil_shape (W : World) (S : session.State) (now : Time)
    (hist : List Request) (S2 : session.State) (ev : List Event)
    (h : session.Initialize W S now hist = (none, S2, ev)) :
    ∃ g r0 tail q resp, ev = .bootstrap :: .roundTrip g r0 :: tail ∧
      g.rawURL = S.APIBaseURL ++ "/api/v1/session-init" ∧
      (∀ e ∈ Event.roundTrip g r0 :: tail, Event.isCall "GET" e = true) ∧
      (Event.roundTrip g r0 :: tail).getLast? = some (.roundTrip q (.ok resp)) ∧
      resp.followed = false ∧
      (∀ e ∈ (Event.roundTrip g r0 :: tail).dropLast,
        ∃ q' rr, e = .roundTrip q' (.ok rr) ∧ rr.followed = true) := by
  rcases session.Initialize_shape W S now hist _ _ _ h with
    ⟨_, _, herr, _⟩ | ⟨req, res, chain, hM, hR, _, hev, hc, he, herr⟩
  · simp at herr
  · cases res with
    | error msg => simp [session.errorOf] at herr
    | ok resp =>
      obtain ⟨⟨q, hlast⟩, hnf⟩ := session.Ended.of_ok W "Get" 10 resp chain he
      have hall := session.RedirectChain.all_get S now 10 req chain hc hM
      obtain ⟨⟨r0, tail, hch⟩, _, _, hinner, _⟩ := hc
      subst hch
      refine ⟨_, r0, tail, q, resp, hev, ?_, hall, hlast, hnf, hinner⟩
      rw [(session.withCookies_fields S now req).2.1, hR]

/-- A failed POST exchange ends the run with status 502 and the wrapped error text and a
line feed; it is the last exchange, and a POST exchange before it was a followed
redirect. -/
theorem handler_post_failure (W : World) (allowedOrigins apiBaseURL : String)
    (S : session.State) (now : Time) (hist : List Request) (r : InRequest)
    (p : Request) (e : String)
    (hm : r.Method ≠ "OPTIONS")
    (hcall : Event.roundTrip p (.error e) ∈
      (handler W allowedOrigins apiBaseURL S now hist r).events)
    (hp : p.Method = "POST") :
    (handler W allowedOrigins apiBaseURL S now hist r).w.wroteHeader = true ∧
    (handler W allowedOrigins apiBaseURL S now hist r).w.Code = 502 ∧
    (handler W allowedOrigins apiBaseURL S now hist r).w.Body =
      session.urlError W "Post" (W.Redacted p.URL) e ++ "\n" ∧
    (handler W allowedOrigins apiBaseURL S now hist r).events.getLast? =
      some (.roundTrip p (.error e)) ∧
    (∀ ev ∈ (handler W allowedOrigins apiBaseURL S now hist r).events.dropLast,
      Event.isCall "POST" ev = true →
        ∃ q resp, ev = .roundTrip q (.ok resp) ∧ resp.followed = true) := by
  have hfresh := handler.cors_fresh allowedOrigins r
  have hnotget : ∀ l : List Event, (∀ x ∈ l, Event.isCall "GET" x = true) →
      Event.roundTrip p (.error e) ∉ l := by
    intro l hl hmem
    have := hl _ hmem
    simp only [Event.isCall, beq_iff_eq] at this
    rw [hp] at this
    exact absurd this (by decide)
  rcases handler_cases W allowedOrigins apiBaseURL S now hist r hm with
    ⟨_, hrun⟩ | ⟨S1, e1, S2, ev, _, hi, hrun⟩ | ⟨S1, S2, ev, _, hi, hrun⟩
  · rw [hrun] at hcall; simp at hcall
  · rw [hrun] at hcall
    rcases session.Initialize_shape W _ now hist _ _ _ hi with
      ⟨_, _, _, hev⟩ | ⟨req, res, chain, hM, _, _, hev, hc, _, _⟩
    · subst hev; simp at hcall
    · subst hev
      simp only [List.mem_cons, reduceCtorEq, false_or] at hcall
      exact absurd hcall
        (hnotget chain (session.RedirectChain.all_get _ now 10 req chain hc hM))
  · rw [hrun] at hcall ⊢
    obtain ⟨g, r0, tail, _, _, hev, _, hget, _, _, _⟩ :=
      session.Initialize_nil_shape W _ now hist _ _ hi
    have hevget : Event.roundTrip p (.error e) ∉ ev := by
      rw [hev]
      intro hmem
      simp only [List.mem_cons, reduceCtorEq, false_or] at hmem
      exact hnotget _ hget (by simpa using hmem)
    have hevpost : ∀ x ∈ ev, Event.isCall "POST" x = false := by
      rw [hev]
      intro x hx
      simp only [List.mem_cons] at hx
      rcases hx with hx | hx
      · subst hx; rfl
      · exact session.isCall_POST_of_GET x (hget x (by simpa using hx))
    rcases handler.forward_cases W apiBaseURL (handler.cors allowedOrigins r) S2 now hist ev r
      with ⟨e2, _, hf⟩ | ⟨b', e2, _, _, hf⟩ |
        ⟨b', u', req, msg, S3, chain, _, _, _, _, _, _, hc, he, hf⟩ |
        ⟨b', u', req, resp, S3, chain, _, _, _, _, _, _, hc, he, hf⟩
    · rw [hf] at hcall; exact absurd hcall hevget
    · rw [hf] at hcall; exact absurd hcall hevget
    · rw [hf] at hcall ⊢
      simp only [List.mem_append] at hcall
      rcases hcall with hcall | hcall
      · exact absurd hcall hevget
      · obtain ⟨hlast, hres⟩ :=
          session.RedirectChain.error_last W "Post" S2 now 10 req _ chain hc he p e hcall
        simp only [Except.error.injEq] at hres
        subst hres
        have hne : chain ≠ [] := List.ne_nil_of_mem hcall
        have herr := Error_fresh (handler.cors allowedOrigins r)
          (session.urlError W "Post" (W.Redacted p.URL) e) 502 hfresh.1 hfresh.2
        refine ⟨herr.1, herr.2.1, herr.2.2, ?_, ?_⟩
        · simp only
          rw [List.getLast?_append_of_ne_nil _ hne]
          exact hlast
        · simp only
          rw [List.dropLast_append_of_ne_nil _ hne]
          intro x hx hpost
          simp only [List.mem_append] at hx
          rcases hx with hx | hx
          · rw [hevpost x hx] at hpost
            exact absurd hpost (by simp)
          · exact hc.2.2.2.1 x hx
    · rw [hf] at hcall
      simp only [List.mem_append] at hcall
      rcases hcall with hcall | hcall
      · exact absurd hcall hevget
      · have := (session.RedirectChain.error_last W "Post" S2 now 10 req _ chain hc he p e
          hcall).2
        simp at this

/-- When lines 52 to 58 let the run continue, the run is the forwarding part. -/
theorem handler_of_ready (W : World) (allowedOrigins apiBaseURL : String)
    (S : session.State) (now : Time) (hist : List Request) (r : InRequest)
    (hm : r.Method ≠ "OPTIONS") (hr : session.ready W S now hist = true) :
    ∃ S2 ev, handler W allowedOrigins apiBaseURL S now hist r =
      handler.forward W apiBaseURL (handler.cors allowedOrigins r) S2 now hist ev r := by
  rcases handler_cases W allowedOrigins apiBaseURL S now hist r hm with
    ⟨hnone, _⟩ | ⟨S1, e, S2, ev, ht, hi, _⟩ | ⟨S1, S2, ev, _, _, hrun⟩
  · simp [session.ready, hnone] at hr
  · simp [session.ready, ht, hi] at hr
  · exact ⟨S2, ev, hrun⟩

namespace server

theorem Initialize_eq_InitializeRef (env : Env) :
    (Initialize env).toOption = InitializeRef env := by
  unfold Initialize InitializeRef getEnvWithFallback valueOrDefault Getenv
  have hdev : ("development" = "production") = False := by decide
  cases hm : env "MODE" with
  | none =>
    cases hp : env "BOHECO2_PROXY_SERVER_PORT" <;>
      cases hu : env "BOHECO2_API_BASE_URL" <;>
      cases ha : env "BOHECO2_PROXY_SERVER_ALLOWED_ORIGINS" <;>
      simp [Except.toOption, hdev]
  | some m =>
    by_cases hprod : m = "production"
    · subst hprod
      cases hp : env "BOHECO2_PROXY_SERVER_PORT" <;>
        cases hu : env "BOHECO2_API_BASE_URL" <;>
        cases ha : env "BOHECO2_PROXY_SERVER_ALLOWED_ORIGINS" <;>
        simp [Except.toOption]
      split_ifs <;> simp_all
    · by_cases hempty : m = ""
      · cases hp : env "BOHECO2_PROXY_SERVER_PORT" <;>
          cases hu : env "BOHECO2_API_BASE_URL" <;>
          cases ha : env "BOHECO2_PROXY_SERVER_ALLOWED_ORIGINS" <;>
          simp [Except.toOption, hprod, hempty, hdev]
      · cases hp : env "BOHECO2_PROXY_SERVER_PORT" <;>
          cases hu : env "BOHECO2_API_BASE_URL" <;>
          cases ha : env "BOHECO2_PROXY_SERVER_ALLOWED_ORIGINS" <;>
          simp [Except.toOption, hprod, hempty]


theorem InitializeRef_eq_none_iff (env : Env) :
    InitializeRef env = none ↔
      env "MODE" = some "production" ∧
        (unsetOrEmpty env "BOHECO2_PROXY_SERVER_PORT" = true ∨
          unsetOrEmpty env "BOHECO2_API_BASE_URL" = true ∨
          unsetOrEmpty env "BOHECO2_PROXY_SERVER_ALLOWED_ORIGINS" = true) := by
  unfold InitializeRef unsetOrEmpty
  by_cases hmode : env "MODE" = some "production"
  · cases hp : env "BOHECO2_PROXY_SERVER_PORT" <;>
      cases hu : env "BOHECO2_API_BASE_URL" <;>
      cases ha : env "BOHECO2_PROXY_SERVER_ALLOWED_ORIGINS" <;>
      simp [hmode]
    tauto
  · simp [hmode]

end server

/-! ## Properties -/

/-- C1: for every allow-list and every inbound request with Origin header value `o`, the
handler leaves `Access-Control-Allow-Origin` set to exactly `o` when
`server.IsOriginAllowed o` holds and absent otherwise; and `IsOriginAllowed o` holds exactly
when the allow-list is the wildcard `*` or `o` is one of its comma-separated entries
(each entry taken without surrounding white space). -/
theorem C1_allow_origin_echo (W : World) (allowedOrigins apiBaseURL : String)
    (S : session.State) (now : Time) (hist : List Request) (r : InRequest) :
    (handler W allowedOrigins apiBaseURL S now hist r).w.Header.lookup
        "Access-Control-Allow-Origin" =
      (if server.IsOriginAllowed allowedOrigins (r.Header.Get "Origin") then
        some [r.Header.Get "Origin"]
      else none) ∧
    (server.IsOriginAllowed allowedOrigins (r.Header.Get "Origin") = true ↔
      allowedOrigins = "*" ∨
        ∃ piece ∈ strings.SplitSeq allowedOrigins ',',
          strings.TrimSpace piece = r.Header.Get "Origin") := by
  refine ⟨?_, server.IsOriginAllowed_iff _ _⟩
  rw [handler_Header_lookup W allowedOrigins apiBaseURL S now hist r _ (by decide) (by decide)
    (by decide)]
  exact handler.cors_allow_origin allowedOrigins r

/-- C2 (the code departs from it): with an unexpired `session_token` entry stored for the
upstream, `Jar.Cookies` does return the cookie, yet `HasToken` answers false and the handler
bootstraps again before forwarding. The same happens on the second inquiry of the
scenario, whose jar holds the token stored by the bootstrap of the first. -/
theorem C2_live_token_ignored :
    session.holdsLiveToken Sample.withToken.Jar
        { Scheme := "https", Host := Sample.host, Path := "" } 1000 = true ∧
    (Sample.withToken.Jar.Cookies { Scheme := "https", Host := Sample.host, Path := "" } 1000).1 =
        [{ Name := "session_token", Value := "abc" }] ∧
    (session.HasToken Sample.world Sample.withToken 1000).map Prod.fst = some false ∧
    (handler Sample.world "*" Sample.base Sample.withToken 1000 [] Sample.post).events.map
        Event.isBootstrap = [true, false, false] ∧
    (Event.requests
        (handler Sample.world "*" Sample.base Sample.withToken 1000 [] Sample.post).events).map
        (fun q => (q.Method, q.rawURL)) =
      [("GET", "https://bill-inquiry-api.onrender.com/api/v1/session-init"),
       ("POST", "https://bill-inquiry-api.onrender.com/api/v1/bill")] ∧
    session.holdsLiveToken
        (handler Sample.world "*" Sample.base Sample.fresh 1000 [] Sample.post).S.Jar
        { Scheme := "https", Host := Sample.host, Path := "" } 2000 = true ∧
    (handler Sample.world "*" Sample.base
        (handler Sample.world "*" Sample.base Sample.fresh 1000 [] Sample.post).S 2000
        (Event.requests
          (handler Sample.world "*" Sample.base Sample.fresh 1000 [] Sample.post).events)
        Sample.post).events.map Event.isBootstrap = [true, false, false] := by
  decide

/-- C3: for every request other than OPTIONS arriving while the jar holds no unexpired
`session_token` cookie for the upstream base URL `u`, `HasToken` answers false, the
handler makes exactly one bootstrap call, and that call is the first event of the run:
after it come the GET exchanges of the bootstrap (the first to the session-init
endpoint, a further one only after an answer that was a followed redirect) and then,
only after the client returned a response to the bootstrap, the exchanges of the
forwarded request, the first of which is the POST to the bill endpoint (again a further
one only after a followed redirect). -/
theorem C3_bootstrap_once_before_forward (W : World) (allowedOrigins apiBaseURL : String)
    (S : session.State) (now : Time) (hist : List Request) (r : InRequest) (u : URL)
    (hm : r.Method ≠ "OPTIONS") (hu : W.Parse S.APIBaseURL = .ok u)
    (_hno : session.holdsLiveToken S.Jar u now = false) :
    (session.HasToken W S now).map Prod.fst = some false ∧
    ((handler W allowedOrigins apiBaseURL S now hist r).events.filter
        Event.isBootstrap).length = 1 ∧
    ∃ gets fwd,
      (handler W allowedOrigins apiBaseURL S now hist r).events = .bootstrap :: (gets ++ fwd) ∧
      (∀ e ∈ gets, Event.isCall "GET" e = true) ∧
      (gets = [] ∨ ∃ g res tail, gets = .roundTrip g res :: tail ∧
        g.rawURL = S.APIBaseURL ++ "/api/v1/session-init") ∧
      (fwd = [] ∨ ∃ p res tail, fwd = .roundTrip p res :: tail ∧ p.Method = "POST" ∧
        p.rawURL = apiBaseURL ++ "/api/v1/bill" ∧ (∀ e ∈ tail, Event.isBootstrap e = false) ∧
        ∃ q resp, gets.getLast? = some (.roundTrip q (.ok resp)) ∧ resp.followed = false) ∧
      (∀ e ∈ gets.dropLast, ∃ q rr, e = .roundTrip q (.ok rr) ∧ rr.followed = true) ∧
      (∀ e ∈ fwd.dropLast, ∃ q rr, e = .roundTrip q (.ok rr) ∧ rr.followed = true) := by
  have ht := session.HasToken_of_parse W S now u hu
  refine ⟨by rw [ht]; rfl, ?_⟩
  suffices hshape : ∃ gets fwd,
      (handler W allowedOrigins apiBaseURL S now hist r).events = .bootstrap :: (gets ++ fwd) ∧
      (∀ e ∈ gets, Event.isCall "GET" e = true) ∧
      (gets = [] ∨ ∃ g res tail, gets = .roundTrip g res :: tail ∧
        g.rawURL = S.APIBaseURL ++ "/api/v1/session-init") ∧
      (fwd = [] ∨ ∃ p res tail, fwd = .roundTrip p res :: tail ∧ p.Method = "POST" ∧
        p.rawURL = apiBaseURL ++ "/api/v1/bill" ∧ (∀ e ∈ tail, Event.isBootstrap e = false) ∧
        ∃ q resp, gets.getLast? = some (.roundTrip q (.ok resp)) ∧ resp.followed = false) ∧
      (∀ e ∈ gets.dropLast, ∃ q rr, e = .roundTrip q (.ok rr) ∧ rr.followed = true) ∧
      (∀ e ∈ fwd.dropLast, ∃ q rr, e = .roundTrip q (.ok rr) ∧ rr.followed = true) by
    refine ⟨?_, hshape⟩
    obtain ⟨gets, fwd, hev, hget, _, hfwd, _, _⟩ := hshape
    rw [hev]
    have hrest : ∀ e ∈ gets ++ fwd, Event.isBootstrap e = false := by
      intro e he
      simp only [List.mem_append] at he
      rcases he with he | he
      · exact isBootstrap_of_isCall "GET" e (hget e he)
      · rcases hfwd with hnil | ⟨p, res, tail, hf, _, _, htail, _⟩
        · rw [hnil] at he; simp at he
        · rw [hf] at he
          simp only [List.mem_cons] at he
          rcases he with he | he
          · subst he; rfl
          · exact htail e he
    simp [List.filter, Event.isBootstrap, filter_isBootstrap_eq_nil _ hrest]
  rcases handler_cases W allowedOrigins apiBaseURL S now hist r hm with
    ⟨hnone, _⟩ | ⟨S1, e, S2, ev, ht1, hi, hrun⟩ | ⟨S1, S2, ev, ht1, hi, hrun⟩
  · rw [ht] at hnone; simp at hnone
  · rw [ht] at ht1
    simp only [Option.some.injEq, Prod.mk.injEq, true_and] at ht1
    subst ht1
    rw [hrun]
    rcases session.Initialize_shape W _ now hist _ _ _ hi with
      ⟨_, _, _, hev⟩ | ⟨req, res, chain, hM, hR, _, hev, hc, _, _⟩
    · subst hev
      exact ⟨[], [], rfl, by simp, Or.inl rfl, Or.inl rfl, by simp, by simp⟩
    · subst hev
      have hall := session.RedirectChain.all_get _ now 10 req chain hc hM
      obtain ⟨⟨r0, tail, hch⟩, _, _, hinner, _⟩ := hc
      refine ⟨chain, [], by simp, hall, Or.inr ⟨_, r0, tail, hch, ?_⟩, Or.inl rfl, hinner,
        by simp⟩
      rw [(session.withCookies_fields _ now req).2.1, hR]
  · rw [ht] at ht1
    simp only [Option.some.injEq, Prod.mk.injEq, true_and] at ht1
    subst ht1
    rw [hrun]
    obtain ⟨g, r0, tail, q, resp, hev, hgR, hget, hlast, hnf, hginner⟩ :=
      session.Initialize_nil_shape W _ now hist _ _ hi
    subst hev
    rcases handler.forward_cases W apiBaseURL (handler.cors allowedOrigins r) S2 now hist
        (.bootstrap :: .roundTrip g r0 :: tail) r with
      ⟨e, _, hf⟩ | ⟨b, e, _, _, hf⟩ |
        ⟨b, u', req, msg, S3, chain, _, _, hpM, hpR, _, _, hc, _, hf⟩ |
        ⟨b, u', req, resp', S3, chain, _, _, hpM, hpR, _, _, hc, _, hf⟩
    · rw [hf]
      exact ⟨.roundTrip g r0 :: tail, [], by simp, hget, Or.inr ⟨g, r0, tail, rfl, hgR⟩,
        Or.inl rfl, hginner, by simp⟩
    · rw [hf]
      exact ⟨.roundTrip g r0 :: tail, [], by simp, hget, Or.inr ⟨g, r0, tail, rfl, hgR⟩,
        Or.inl rfl, hginner, by simp⟩
    · rw [hf]
      obtain ⟨⟨p0, ptail, hch⟩, hnb, _, hpinner, _⟩ := hc
      subst hch
      refine ⟨.roundTrip g r0 :: tail, .roundTrip (session.withCookies S2 now req) p0 :: ptail,
        by simp, hget, Or.inr ⟨g, r0, tail, rfl, hgR⟩,
        Or.inr ⟨session.withCookies S2 now req, p0, ptail, rfl, ?_, ?_, ?_, q, resp, hlast,
          hnf⟩, hginner, hpinner⟩
      · rw [(session.withCookies_fields S2 now req).1, hpM]
      · rw [(session.withCookies_fields S2 now req).2.1, hpR]
      · intro x hx; exact hnb x (List.mem_cons_of_mem _ hx)
    · rw [hf]
      obtain ⟨⟨p0, ptail, hch⟩, hnb, _, hpinner, _⟩ := hc
      subst hch
      refine ⟨.roundTrip g r0 :: tail, .roundTrip (session.withCookies S2 now req) p0 :: ptail,
        by simp, hget, Or.inr ⟨g, r0, tail, rfl, hgR⟩,
        Or.inr ⟨session.withCookies S2 now req, p0, ptail, rfl, ?_, ?_, ?_, q, resp, hlast,
          hnf⟩, hginner, hpinner⟩
      · rw [(session.withCookies_fields S2 now req).1, hpM]
      · rw [(session.withCookies_fields S2 now req).2.1, hpR]
      · intro x hx; exact hnb x (List.mem_cons_of_mem _ hx)

/-- C3 on the first bill inquiry of the scenario: empty jar, one bootstrap, then the
GET and the POST. -/
theorem C3_bootstrap_once_before_forward_witness :
    (session.HasToken Sample.world Sample.fresh 1000).map Prod.fst = some false ∧
    ((handler Sample.world "*" Sample.base Sample.fresh 1000 [] Sample.post).events.filter
        Event.isBootstrap).length = 1 ∧
    (handler Sample.world "*" Sample.base Sample.fresh 1000 [] Sample.post).events.map
        Event.isBootstrap = [true, false, false] :=
  have h := C3_bootstrap_once_before_forward Sample.world "*" Sample.base Sample.fresh 1000 []
    Sample.post { Scheme := "https", Host := Sample.host, Path := "" } (by decide) rfl
    (by decide)
  ⟨h.1, h.2.1, by decide⟩

/-- C4: for every OPTIONS request, whatever its origin, body and the session state, the
handler answers 204 with an empty body, `Access-Control-Allow-Methods` is `POST, OPTIONS`
and `Access-Control-Allow-Headers` is `Content-Type, Authorization`, no bootstrap and no
upstream call is made, and the session state (cookie store) is unchanged. -/
theorem C4_options_short_circuit (W : World) (allowedOrigins apiBaseURL : String)
    (S : session.State) (now : Time) (hist : List Request) (r : InRequest)
    (hm : r.Method = "OPTIONS") :
    (handler W allowedOrigins apiBaseURL S now hist r).w.wroteHeader = true ∧
    (handler W allowedOrigins apiBaseURL S now hist r).w.Code = 204 ∧
    (handler W allowedOrigins apiBaseURL S now hist r).w.Body = "" ∧
    (handler W allowedOrigins apiBaseURL S now hist r).w.Header.lookup
        "Access-Control-Allow-Methods" = some ["POST, OPTIONS"] ∧
    (handler W allowedOrigins apiBaseURL S now hist r).w.Header.lookup
        "Access-Control-Allow-Headers" = some ["Content-Type, Authorization"] ∧
    (handler W allowedOrigins apiBaseURL S now hist r).events = [] ∧
    (handler W allowedOrigins apiBaseURL S now hist r).S = S ∧
    (handler W allowedOrigins apiBaseURL S now hist r).panicked = false := by
  have hrun : handler W allowedOrigins apiBaseURL S now hist r =
      { w := (handler.cors allowedOrigins r).WriteHeader 204, S := S, events := [] } := by
    simp [handler, hm]
  have hfresh := handler.cors_fresh allowedOrigins r
  have hw := ResponseWriter.WriteHeader_fresh (handler.cors allowedOrigins r) 204 hfresh.1
  have hh := handler.cors_allow_methods allowedOrigins r
  rw [hrun]
  refine ⟨hw.1, hw.2.1, ?_, ?_, ?_, rfl, rfl, rfl⟩
  · rw [hw.2.2]; exact hfresh.2
  · rw [ResponseWriter.WriteHeader_Header]; exact hh.1
  · rw [ResponseWriter.WriteHeader_Header]; exact hh.2

/-- C4 at the preflight of the scenario frontend, with a session token in the jar. -/
theorem C4_options_short_circuit_witness :
    Sample.preflight.Method = "OPTIONS" ∧
    (handler Sample.world "https://www.boheco2.com.ph" Sample.base Sample.withToken 1000 []
        Sample.preflight).w.Code = 204 ∧
    (handler Sample.world "https://www.boheco2.com.ph" Sample.base Sample.withToken 1000 []
        Sample.preflight).events = [] ∧
    (handler Sample.world "https://www.boheco2.com.ph" Sample.base Sample.withToken 1000 []
        Sample.preflight).S = Sample.withToken :=
  have h := C4_options_short_circuit Sample.world "https://www.boheco2.com.ph" Sample.base
    Sample.withToken 1000 [] Sample.preflight (by decide)
  ⟨by decide, h.2.1, h.2.2.2.2.2.1, h.2.2.2.2.2.2.1⟩

/-- C5 as stated fails: when the upstream answers the forwarded POST with a 302 whose
`Location` names another host, the caller does not receive what the upstream returned;
the client follows the redirect with a GET and the handler relays the answer of the
other host. -/
theorem C5_redirect_answer_not_relayed :
    (Event.requests
        (handler Sample.worldMoved "*" Sample.base Sample.fresh 1000 [] Sample.post).events).map
        (fun q => (q.Method, q.URL.Host, q.Body)) =
      [("GET", "bill-inquiry-api.onrender.com", none),
       ("POST", "bill-inquiry-api.onrender.com", some "\x7b\"account\":\"123\"\x7d"),
       ("GET", "elsewhere.example", none)] ∧
    (handler Sample.worldMoved "*" Sample.base Sample.fresh 1000 [] Sample.post).events.filterMap
        Event.answered = [("GET", 200, "ok"), ("POST", 302, "moved"), ("GET", 200, "landing")] ∧
    (handler Sample.worldMoved "*" Sample.base Sample.fresh 1000 [] Sample.post).w.Code = 200 ∧
    (handler Sample.worldMoved "*" Sample.base Sample.fresh 1000 [] Sample.post).w.Body =
      "landing" ∧
    (handler Sample.worldMoved "*" Sample.base Sample.fresh 1000 [] Sample.post).w.Code ≠ 302 ∧
    (handler Sample.worldMoved "*" Sample.base Sample.fresh 1000 [] Sample.post).w.Body ≠
      "moved" := by
  decide

/-- C5 (amended): for every request other than OPTIONS with readable body `b`, when the
session client returns the response `resp` for the forwarded request, the first POST of
the run goes to `apiBaseURL ++ "/api/v1/bill"` with body exactly `b`; every answer from
that POST on, except the last, was a redirect that the client followed; `resp` is the
answer to the last exchange of the run and is not itself followed; and the response
written to the caller has exactly the status code and the body bytes of `resp`. -/
theorem C5_forward_and_relay_client_response (W : World) (allowedOrigins apiBaseURL : String)
    (S : session.State) (now : Time) (hist : List Request) (r : InRequest) (b : String)
    (resp : Response)
    (hm : r.Method ≠ "OPTIONS") (hb : r.Body = .ok b)
    (hup : (handler W allowedOrigins apiBaseURL S now hist r).upstream = some (.ok resp)) :
    (∃ pre p r0 post,
      (handler W allowedOrigins apiBaseURL S now hist r).events =
        pre ++ .roundTrip p r0 :: post ∧
      (∀ e ∈ pre, Event.isCall "POST" e = false) ∧
      p.Method = "POST" ∧ p.rawURL = apiBaseURL ++ "/api/v1/bill" ∧
      W.Parse (apiBaseURL ++ "/api/v1/bill") = .ok p.URL ∧ p.Body = some b ∧
      (∀ e ∈ (Event.roundTrip p r0 :: post).dropLast,
        ∃ q rr, e = .roundTrip q (.ok rr) ∧ rr.followed = true) ∧
      ∃ q, (Event.roundTrip p r0 :: post).getLast? = some (.roundTrip q (.ok resp))) ∧
    resp.followed = false ∧
    (handler W allowedOrigins apiBaseURL S now hist r).w.wroteHeader = true ∧
    (handler W allowedOrigins apiBaseURL S now hist r).w.Code = resp.StatusCode ∧
    (handler W allowedOrigins apiBaseURL S now hist r).w.Body = resp.Body := by
  have hfresh := handler.cors_fresh allowedOrigins r
  rcases handler_cases W allowedOrigins apiBaseURL S now hist r hm with
    ⟨_, hrun⟩ | ⟨S1, e, S2, ev, _, _, hrun⟩ | ⟨S1, S2, ev, _, hi, hrun⟩
  · rw [hrun] at hup; simp at hup
  · rw [hrun] at hup; simp at hup
  · rw [hrun] at hup ⊢
    obtain ⟨g, r0, tail, _, _, hev, _, hget, _, _, _⟩ :=
      session.Initialize_nil_shape W _ now hist _ _ hi
    have hevpost : ∀ x ∈ ev, Event.isCall "POST" x = false := by
      rw [hev]
      intro x hx
      simp only [List.mem_cons] at hx
      rcases hx with hx | hx
      · subst hx; rfl
      · exact session.isCall_POST_of_GET x (hget x (by simpa using hx))
    rcases handler.forward_cases W apiBaseURL (handler.cors allowedOrigins r) S2 now hist ev r
      with ⟨e2, _, hf⟩ | ⟨b', e2, _, _, hf⟩ |
        ⟨b', u', req, msg, S3, chain, _, _, _, _, _, _, _, _, hf⟩ |
        ⟨b', u', req, resp', S3, chain, hb', hP, hM, hR, hU, hB, hc, he, hf⟩
    · rw [hf] at hup; simp at hup
    · rw [hf] at hup; simp at hup
    · rw [hf] at hup; simp at hup
    · rw [hf] at hup ⊢
      simp only [Option.some.injEq, Except.ok.injEq] at hup
      subst hup
      rw [hb] at hb'
      simp only [Except.ok.injEq] at hb'
      subst hb'
      obtain ⟨hlast, hnf⟩ := session.Ended.of_ok W "Post" 10 resp' chain he
      have hf' := session.withCookies_fields S2 now req
      obtain ⟨⟨p0, ptail, hch⟩, _, _, hinner, _⟩ := hc
      subst hch
      have hc := Copy_WriteHeader_fresh (handler.cors allowedOrigins r) resp'.StatusCode
        resp'.Body hfresh.1 hfresh.2
      refine ⟨⟨ev, session.withCookies S2 now req, p0, ptail, rfl, hevpost, ?_, ?_, ?_, ?_,
        hinner, hlast⟩, hnf, hc.1, hc.2.1, hc.2.2⟩
      · rw [hf'.1, hM]
      · rw [hf'.2.1, hR]
      · rw [hf'.2.2.1, hU, hP]
      · rw [hf'.2.2.2.2, hB]

/-- C5 (amended) on the scenario of the specification, where the balance answer is
relayed with status 200, and on the redirected POST, where the landing answer is. -/
theorem C5_forward_and_relay_client_response_witness :
    (handler Sample.world "*" Sample.base Sample.fresh 1000 [] Sample.post).w.Code = 200 ∧
    (handler Sample.world "*" Sample.base Sample.fresh 1000 [] Sample.post).w.Body =
      "\x7b\"balance\":42\x7d" ∧
    (handler Sample.worldMoved "*" Sample.base Sample.fresh 1000 [] Sample.post).w.Body =
      "landing" ∧
    ((Event.requests
        (handler Sample.world "*" Sample.base Sample.fresh 1000 [] Sample.post).events).map
        (fun q => (q.Method, q.rawURL, q.Body))) =
      [("GET", "https://bill-inquiry-api.onrender.com/api/v1/session-init", none),
       ("POST", "https://bill-inquiry-api.onrender.com/api/v1/bill",
          some "\x7b\"account\":\"123\"\x7d")] :=
  have h := C5_forward_and_relay_client_response Sample.world "*" Sample.base Sample.fresh
    1000 [] Sample.post "\x7b\"account\":\"123\"\x7d"
    { StatusCode := 200, Body := "\x7b\"balance\":42\x7d" } (by decide) rfl (by decide)
  have h' := C5_forward_and_relay_client_response Sample.worldMoved "*" Sample.base
    Sample.fresh 1000 [] Sample.post "\x7b\"account\":\"123\"\x7d"
    { StatusCode := 200, Body := "landing" } (by decide) rfl (by decide)
  ⟨h.2.2.2.1, h.2.2.2.2, h'.2.2.2.2, by decide⟩

/-- C6: for every request other than OPTIONS arriving with no valid session token, if
the bootstrap returns error `e`, the handler answers 500 with the body
`Failed to init session: ` followed by the message of `e` (and the line feed of
`http.Error`), so the body contains the text of `e`, and no POST is made. -/
theorem C6_bootstrap_failure_500 (W : World) (allowedOrigins apiBaseURL : String)
    (S : session.State) (now : Time) (hist : List Request) (r : InRequest)
    (S1 : session.State) (e : String)
    (hm : r.Method ≠ "OPTIONS")
    (ht : session.HasToken W S now = some (false, S1))
    (hi : (session.Initialize W S1 now hist).1 = some e) :
    (handler W allowedOrigins apiBaseURL S now hist r).w.wroteHeader = true ∧
    (handler W allowedOrigins apiBaseURL S now hist r).w.Code = 500 ∧
    (handler W allowedOrigins apiBaseURL S now hist r).w.Body =
      "Failed to init session: " ++ e ++ "\n" ∧
    e.data <:+: (handler W allowedOrigins apiBaseURL S now hist r).w.Body.data ∧
    ∀ ev ∈ (handler W allowedOrigins apiBaseURL S now hist r).events,
      Event.isCall "POST" ev = false :=
  handler_bootstrap_failure W allowedOrigins apiBaseURL S now hist r S1 e hm ht hi

/-- C6 with an unreachable session endpoint: status 500, the error text of the client
in the body, no POST. -/
theorem C6_bootstrap_failure_500_witness :
    (handler Sample.worldNoSession "*" Sample.base Sample.fresh 1000 [] Sample.post).w.Code
      = 500 ∧
    (handler Sample.worldNoSession "*" Sample.base Sample.fresh 1000 [] Sample.post).w.Body =
      "Failed to init session: Get \"https://bill-inquiry-api.onrender.com/api/v1/session-init\": no such host\n" ∧
    (Event.requests
        (handler Sample.worldNoSession "*" Sample.base Sample.fresh 1000 [] Sample.post).events).map
        (fun q => q.Method) = ["GET"] :=
  have h := C6_bootstrap_failure_500 Sample.worldNoSession "*" Sample.base Sample.fresh 1000 []
    Sample.post Sample.fresh
    "Get \"https://bill-inquiry-api.onrender.com/api/v1/session-init\": no such host"
    (by decide) (by decide) (by decide)
  ⟨h.2.1, h.2.2.1, by decide⟩

/-- C7 as stated fails: when the POST fails with `connection refused` the body of the
502 answer is not that message; it is the message of the error the client returns, which
names the operation and the URL before the transport error, followed by a line feed. -/
theorem C7_body_is_not_bare_message :
    (handler Sample.worldDown "*" Sample.base Sample.fresh 1000 [] Sample.post).events.filterMap
        Event.failed = [("POST", "connection refused")] ∧
    (handler Sample.worldDown "*" Sample.base Sample.fresh 1000 [] Sample.post).w.Code = 502 ∧
    (handler Sample.worldDown "*" Sample.base Sample.fresh 1000 [] Sample.post).w.Body =
      "Post \"https://bill-inquiry-api.onrender.com/api/v1/bill\": connection refused\n" ∧
    (handler Sample.worldDown "*" Sample.base Sample.fresh 1000 [] Sample.post).w.Body ≠
      "connection refused" := by
  decide

/-- C7 (amended): for every request other than OPTIONS in whose run a POST exchange fails
at transport level with error `e`, the handler answers 502 with the body
`Post "<URL of the failed request>": ` followed by the message of `e` and one line feed
(the message of the `*url.Error` the client returns); the failure is not retried: the
failed exchange is the last event of the run, and a POST exchange before it can only be
one whose answer was a redirect that the client followed. -/
theorem C7_transport_failure_502 (W : World) (allowedOrigins apiBaseURL : String)
    (S : session.State) (now : Time) (hist : List Request) (r : InRequest)
    (p : Request) (e : String)
    (hm : r.Method ≠ "OPTIONS")
    (hcall : Event.roundTrip p (.error e) ∈
      (handler W allowedOrigins apiBaseURL S now hist r).events)
    (hp : p.Method = "POST") :
    (handler W allowedOrigins apiBaseURL S now hist r).w.wroteHeader = true ∧
    (handler W allowedOrigins apiBaseURL S now hist r).w.Code = 502 ∧
    (handler W allowedOrigins apiBaseURL S now hist r).w.Body =
      "Post" ++ " " ++ W.Quote (W.Redacted p.URL) ++ ": " ++ e ++ "\n" ∧
    (handler W allowedOrigins apiBaseURL S now hist r).events.getLast? =
      some (.roundTrip p (.error e)) ∧
    (∀ ev ∈ (handler W allowedOrigins apiBaseURL S now hist r).events.dropLast,
      Event.isCall "POST" ev = true →
        ∃ q resp, ev = .roundTrip q (.ok resp) ∧ resp.followed = true) :=
  handler_post_failure W allowedOrigins apiBaseURL S now hist r p e hm hcall hp

/-- C7 (amended) with an unreachable bill endpoint. -/
theorem C7_transport_failure_502_witness :
    (handler Sample.worldDown "*" Sample.base Sample.fresh 1000 [] Sample.post).w.Code = 502 ∧
    (handler Sample.worldDown "*" Sample.base Sample.fresh 1000 [] Sample.post).w.Body =
      "Post \"https://bill-inquiry-api.onrender.com/api/v1/bill\": connection refused\n" ∧
    ((handler Sample.worldDown "*" Sample.base Sample.fresh 1000 [] Sample.post).events.filter
      (Event.isCall "POST")).length = 1 :=
  have h := C7_transport_failure_502 Sample.worldDown "*" Sample.base Sample.fresh 1000 []
    Sample.post
    { Method := "POST", rawURL := "https://bill-inquiry-api.onrender.com/api/v1/bill",
      URL := { Scheme := "https", Host := Sample.host, Path := "/api/v1/bill" },
      Header := [("Content-Type", ["application/json"]),
        ("Referer", ["https://www.boheco2.com.ph"]), ("Origin", ["https://www.boheco2.com.ph"]),
        ("Accept", ["application/json, text/plain, */*"])],
      Body := some "\x7b\"account\":\"123\"\x7d" }
    "connection refused" (by decide) (by decide) rfl
  ⟨h.2.1, by rw [h.2.2.1]; decide, by decide⟩

/-- C9 as stated fails: a session endpoint that answers every request with a redirect to
itself makes `session.Initialize` return an error, although the GET was built, every
exchange received a response and no transport failed. -/
theorem C9_received_redirects_fail :
    (session.Initialize Sample.worldLoop Sample.fresh 1000 []).2.2.filterMap Event.failed = [] ∧
    (session.Initialize Sample.worldLoop Sample.fresh 1000 []).2.2.filterMap Event.answered =
      List.replicate 10 ("GET", 302, "") ∧
    (session.Initialize Sample.worldLoop Sample.fresh 1000 []).1 =
      some "Get \"/api/v1/session-init\": stopped after 10 redirects" := by
  decide

/-- C9 (amended): `session.Initialize` returns an error only when the GET to
`APIBaseURL ++ "/api/v1/session-init"` cannot be built or the session client returns an
error, which it does in three cases: the last exchange fails at transport level, the
last answer is a redirect whose `Location` does not parse, or the tenth answer is again
a redirect. Whenever the answer to the last exchange is not a redirect carrying a
`Location`, whatever its status code, `Initialize` returns nil, and conversely. The
state afterwards is the one in which the jar has stored the cookies of every response
received; the body is not part of the result. A request that can be built is
exchanged. -/
theorem C9_Initialize_fails_only_when_client_fails (W : World) (S : session.State)
    (now : Time) (hist : List Request) :
    (∀ e, (session.Initialize W S now hist).1 = some e →
      http.NewRequest W "GET" (S.APIBaseURL ++ "/api/v1/session-init") none = .error e ∨
      ∃ chain, (session.Initialize W S now hist).2.2 = .bootstrap :: chain ∧
        ((∃ q te, chain.getLast? = some (.roundTrip q (.error te)) ∧
            e = "Get" ++ " " ++ W.Quote (W.Redacted q.URL) ++ ": " ++ te) ∨
          (∃ q resp perr, chain.getLast? = some (.roundTrip q (.ok resp)) ∧
            resp.followed = true ∧ W.Reference q.URL resp.Location = .error perr ∧
            e = "Get" ++ " " ++ W.Quote (W.Redacted q.URL) ++ ": " ++
              ("failed to parse Location header " ++ W.Quote resp.Location ++ ": " ++ perr)) ∨
          (∃ q resp, chain.getLast? = some (.roundTrip q (.ok resp)) ∧
            resp.followed = true ∧ chain.length = 10 ∧
            e = "Get" ++ " " ++ W.Quote resp.Location ++ ": " ++ "stopped after 10 redirects"))) ∧
    (∀ q resp, (session.Initialize W S now hist).2.2.getLast? = some (.roundTrip q (.ok resp)) →
      resp.followed = false → (session.Initialize W S now hist).1 = none) ∧
    ((session.Initialize W S now hist).1 = none →
      ∃ q resp, (session.Initialize W S now hist).2.2.getLast? = some (.roundTrip q (.ok resp)) ∧
        resp.followed = false) ∧
    (session.Initialize W S now hist).2.1 =
      session.replay W now S (session.Initialize W S now hist).2.2 ∧
    (∀ req, http.NewRequest W "GET" (S.APIBaseURL ++ "/api/v1/session-init") none = .ok req →
      ∃ g tail, g.Method = "GET" ∧ g.rawURL = S.APIBaseURL ++ "/api/v1/session-init" ∧
        g.URL = req.URL ∧
        (session.Initialize W S now hist).2.2 =
          .bootstrap :: .roundTrip g (W.RoundTrip hist g) :: tail) := by
  rcases session.Initialize_cases W S now hist with
    ⟨e, hN, hI⟩ | ⟨u, req, res, S1, chain, hP, hM, hR, hU, _, hhead, hc, he, hs, hI⟩
  · rw [hI]
    refine ⟨?_, ?_, ?_, rfl, ?_⟩
    · intro e' he'
      simp only [Option.some.injEq] at he'
      subst he'
      exact Or.inl hN
    · intro q resp hlast
      simp at hlast
    · intro hnone
      simp at hnone
    · intro req hreq
      rw [hN] at hreq
      simp at hreq
  · rw [hI]
    have hf := session.withCookies_fields S now req
    obtain ⟨⟨r0, tail, hch⟩, _⟩ := hc
    have hne : chain ≠ [] := by rw [hch]; simp
    have hlast' : (Event.bootstrap :: chain).getLast? = chain.getLast? := by
      rw [hch]; simp
    simp only
    refine ⟨?_, ?_, ?_, ?_, ?_⟩
    · intro e' he'
      right
      refine ⟨chain, rfl, ?_⟩
      rcases he with ⟨q, te, h1, h2⟩ | ⟨q, resp, _, _, h2⟩ | ⟨q, resp, perr, h1, h2, h3, h4⟩ |
          ⟨q, resp, h1, h2, h3, h4⟩
      · rw [h2] at he'
        simp only [session.errorOf, Option.some.injEq] at he'
        exact Or.inl ⟨q, te, h1, he'.symm⟩
      · rw [h2] at he'
        simp [session.errorOf] at he'
      · rw [h4] at he'
        simp only [session.errorOf, Option.some.injEq] at he'
        exact Or.inr (Or.inl ⟨q, resp, perr, h1, h2, h3, he'.symm⟩)
      · rw [h3] at he'
        simp only [session.errorOf, Option.some.injEq] at he'
        exact Or.inr (Or.inr ⟨q, resp, h1, h2, h4, he'.symm⟩)
    · intro q resp hlast hnf
      rw [hlast'] at hlast
      rcases he with ⟨q', te, h1, _⟩ | ⟨q', resp', _, _, h2⟩ | ⟨q', resp', perr, h1, h2, _, _⟩ |
          ⟨q', resp', h1, h2, _, _⟩
      · rw [hlast] at h1; simp at h1
      · rw [h2]; rfl
      · rw [hlast] at h1
        simp only [Option.some.injEq, Event.roundTrip.injEq, Except.ok.injEq] at h1
        rw [h1.2, h2] at hnf
        simp at hnf
      · rw [hlast] at h1
        simp only [Option.some.injEq, Event.roundTrip.injEq, Except.ok.injEq] at h1
        rw [h1.2, h2] at hnf
        simp at hnf
    · intro hnone
      rw [hlast']
      rcases he with ⟨_, _, _, h2⟩ | ⟨q', resp', h1, hnf, _⟩ | ⟨_, _, _, _, _, _, h2⟩ |
          ⟨_, _, _, _, h2, _⟩
      · rw [h2] at hnone; simp [session.errorOf] at hnone
      · exact ⟨q', resp', h1, hnf⟩
      · rw [h2] at hnone; simp [session.errorOf] at hnone
      · rw [h2] at hnone; simp [session.errorOf] at hnone
    · rw [hs]; rfl
    · intro req0 hreq
      simp only [http.NewRequest, hP, Except.ok.injEq] at hreq
      rw [hch] at hhead
      simp only [List.head?_cons, Option.some.injEq, Event.roundTrip.injEq, true_and] at hhead
      refine ⟨session.withCookies S now req, tail, ?_, ?_, ?_, ?_⟩
      · rw [hf.1, hM]
      · rw [hf.2.1, hR]
      · rw [hf.2.2.1, hU, ← hreq]
      · rw [hch, hhead]

/-- C9 (amended) against a session endpoint that answers 503 and against one that sets
the session cookie: nil both times, and the cookie is in the jar afterwards. -/
theorem C9_Initialize_fails_only_when_client_fails_witness :
    (session.Initialize Sample.worldDown Sample.fresh 1000 []).1 = none ∧
    (session.Initialize Sample.world Sample.fresh 1000 []).1 = none ∧
    (session.Initialize Sample.world Sample.fresh 1000 []).2.1.Jar.map
        (fun e => (e.Name, e.Value, e.Expires)) = [("session_token", "abc", 5000)] :=
  have h1 := (C9_Initialize_fails_only_when_client_fails Sample.worldDown Sample.fresh 1000
    []).2.1
    { Method := "GET", rawURL := "https://bill-inquiry-api.onrender.com/api/v1/session-init",
      URL := { Scheme := "https", Host := Sample.host, Path := "/api/v1/session-init" },
      Header := [("Referer", ["https://www.boheco2.com.ph"]),
        ("Origin", ["https://www.boheco2.com.ph"]),
        ("Accept", ["application/json, text/plain, */*"])] }
    { StatusCode := 503 } (by decide) (by decide)
  have h2 := (C9_Initialize_fails_only_when_client_fails Sample.world Sample.fresh 1000
    []).2.1
    { Method := "GET", rawURL := "https://bill-inquiry-api.onrender.com/api/v1/session-init",
      URL := { Scheme := "https", Host := Sample.host, Path := "/api/v1/session-init" },
      Header := [("Referer", ["https://www.boheco2.com.ph"]),
        ("Origin", ["https://www.boheco2.com.ph"]),
        ("Accept", ["application/json, text/plain, */*"])] }
    { StatusCode := 200, Cookies := [{ Name := "session_token", Value := "abc", Expires := 5000 }],
      Body := "ok" } (by decide) (by decide)
  ⟨h1, h2, by decide⟩

/-- C10 as stated fails: the answer to an unreadable inbound body is the fixed text
`Failed to read request body`, which does not include the text of the read error. -/
theorem C10_unreadable_body_omits_error :
    Sample.broken.Body = .error "unexpected EOF" ∧
    (handler Sample.world "*" Sample.base Sample.fresh 1000 [] Sample.broken).w.Code = 400 ∧
    (handler Sample.world "*" Sample.base Sample.fresh 1000 [] Sample.broken).w.Body =
      "Failed to read request body\n" ∧
    ¬ ("unexpected EOF".data <:+:
      (handler Sample.world "*" Sample.base Sample.fresh 1000 [] Sample.broken).w.Body.data) := by
  refine ⟨rfl, by decide, by decide, by decide⟩

/-- C10 (amended): on a request other than OPTIONS, the failure responses for a failed
bootstrap (500), for an upstream request that cannot be built (500) and for a failed POST
exchange (502) include the text of the underlying error in the body; the response to an
unreadable inbound body has status 400 and the fixed body `Failed to read request body`
followed by a line feed. -/
theorem C10_failure_bodies (W : World) (allowedOrigins apiBaseURL : String)
    (S : session.State) (now : Time) (hist : List Request) (r : InRequest)
    (hm : r.Method ≠ "OPTIONS") :
    (∀ S1 e, session.HasToken W S now = some (false, S1) →
      (session.Initialize W S1 now hist).1 = some e →
      (handler W allowedOrigins apiBaseURL S now hist r).w.Code = 500 ∧
      e.data <:+: (handler W allowedOrigins apiBaseURL S now hist r).w.Body.data) ∧
    (∀ b e, session.ready W S now hist = true → r.Body = .ok b →
      http.NewRequest W "POST" (apiBaseURL ++ "/api/v1/bill") (some b) = .error e →
      (handler W allowedOrigins apiBaseURL S now hist r).w.Code = 500 ∧
      e.data <:+: (handler W allowedOrigins apiBaseURL S now hist r).w.Body.data) ∧
    (∀ p e, Event.roundTrip p (.error e) ∈
        (handler W allowedOrigins apiBaseURL S now hist r).events → p.Method = "POST" →
      (handler W allowedOrigins apiBaseURL S now hist r).w.Code = 502 ∧
      e.data <:+: (handler W allowedOrigins apiBaseURL S now hist r).w.Body.data) ∧
    (∀ e, session.ready W S now hist = true → r.Body = .error e →
      (handler W allowedOrigins apiBaseURL S now hist r).w.Code = 400 ∧
      (handler W allowedOrigins apiBaseURL S now hist r).w.Body =
        "Failed to read request body\n") := by
  have hfresh := handler.cors_fresh allowedOrigins r
  refine ⟨?_, ?_, ?_, ?_⟩
  · intro S1 e ht hi
    have h := handler_bootstrap_failure W allowedOrigins apiBaseURL S now hist r S1 e hm ht hi
    exact ⟨h.2.1, h.2.2.2.1⟩
  · intro b e hr hb hN
    obtain ⟨S2, ev, hrun⟩ := handler_of_ready W allowedOrigins apiBaseURL S now hist r hm hr
    rw [hrun]
    rcases handler.forward_cases W apiBaseURL (handler.cors allowedOrigins r) S2 now hist ev r
      with ⟨e2, hb', _⟩ | ⟨b', e2, hb', hN', hf⟩ | ⟨b', u', q, e2, S3, c, hb', hP, _⟩ |
        ⟨b', u', q, resp, S3, c, hb', hP, _⟩
    · rw [hb] at hb'; simp at hb'
    · rw [hb] at hb'
      simp only [Except.ok.injEq] at hb'
      subst hb'
      rw [hN] at hN'
      simp only [Except.error.injEq] at hN'
      subst hN'
      have herr := Error_fresh (handler.cors allowedOrigins r) e 500 hfresh.1 hfresh.2
      rw [hf]
      refine ⟨herr.2.1, ?_⟩
      rw [herr.2.2]
      simp only [String.data_append]
      exact ⟨[], "\n".data, rfl⟩
    · rw [hb] at hb'
      simp only [Except.ok.injEq] at hb'
      subst hb'
      simp [http.NewRequest, hP] at hN
    · rw [hb] at hb'
      simp only [Except.ok.injEq] at hb'
      subst hb'
      simp [http.NewRequest, hP] at hN
  · intro p e hcall hp
    have h := handler_post_failure W allowedOrigins apiBaseURL S now hist r p e hm hcall hp
    refine ⟨h.2.1, ?_⟩
    rw [h.2.2.1]
    simp only [session.urlError, String.data_append]
    exact ⟨"Post".data ++ " ".data ++ (W.Quote (W.Redacted p.URL)).data ++ ": ".data, "\n".data,
      by simp⟩
  · intro e hr hb
    obtain ⟨S2, ev, hrun⟩ := handler_of_ready W allowedOrigins apiBaseURL S now hist r hm hr
    rw [hrun]
    rcases handler.forward_cases W apiBaseURL (handler.cors allowedOrigins r) S2 now hist ev r
      with ⟨e2, _, hf⟩ | ⟨b', e2, hb', _⟩ | ⟨b', u', q, e2, S3, c, hb', _⟩ |
        ⟨b', u', q, resp, S3, c, hb', _⟩
    · have herr := Error_fresh (handler.cors allowedOrigins r) "Failed to read request body"
        400 hfresh.1 hfresh.2
      rw [hf]
      exact ⟨herr.2.1, herr.2.2⟩
    · rw [hb] at hb'; simp at hb'
    · rw [hb] at hb'; simp at hb'
    · rw [hb] at hb'; simp at hb'

/-- C10 (amended) on the unreadable inquiry and on the unreachable bill endpoint. -/
theorem C10_failure_bodies_witness :
    (handler Sample.world "*" Sample.base Sample.fresh 1000 [] Sample.broken).w.Code = 400 ∧
    (handler Sample.world "*" Sample.base Sample.fresh 1000 [] Sample.broken).w.Body =
      "Failed to read request body\n" :=
  (C10_failure_bodies Sample.world "*" Sample.base Sample.fresh 1000 [] Sample.broken
    (by decide)).2.2.2 "unexpected EOF" (by decide) rfl

/-- C8: `server.Initialize` agrees with the reference definition for every environment:
in strict mode (`MODE` is `production`) it fails exactly when one of the three variables
is unset or empty and otherwise yields the three environment values; in permissive mode
it never fails and yields each value when non-empty and its default otherwise. -/
theorem C8_Initialize_eq_reference (env : server.Env) :
    (server.Initialize env).toOption = server.InitializeRef env ∧
    ((server.Initialize env).toOption = none ↔
      env "MODE" = some "production" ∧
        (server.unsetOrEmpty env "BOHECO2_PROXY_SERVER_PORT" = true ∨
          server.unsetOrEmpty env "BOHECO2_API_BASE_URL" = true ∨
          server.unsetOrEmpty env "BOHECO2_PROXY_SERVER_ALLOWED_ORIGINS" = true)) :=
  ⟨server.Initialize_eq_InitializeRef env, by
    rw [server.Initialize_eq_InitializeRef env]
    exact server.InitializeRef_eq_none_iff env⟩

end Boheco2
